import Mathlib

/-!
# The render-mode composition engine of `overviewer_core/src/rendermodes.c`

A shallow embedding of the C file: primitive construction
(`render_primitive_create`), mode construction and teardown
(`render_mode_create`, `render_mode_destroy`), the three traversals
(`render_mode_occluded`, `render_mode_hidden`, `render_mode_draw`) and the
option helper (`render_mode_parse_option`).

Conventions of the embedding.

* A C pointer to a heap block is a natural number, `0` being `NULL`.
* Everything the hooks may read or change (the shared `RenderState`, the
  contents of the per-instance data blocks, the image, mask and light-mask
  objects, the interpreter) is one abstract world `W`.
* The engine runs on a `Machine`: the allocator state, the world and a
  chronological log of the observable events (allocations, frees and hook
  invocations), appended exactly where the C code performs them.
* A `for (i = 0; i < n; i++)` loop over the slot array is a recursion over
  the list of slots that carries the index `i`.
* `calloc` draws fresh addresses from an unbounded supply, so it never
  returns `NULL`; the `NULL` checks of the C code are kept in place.
* The `name` attribute of a primitive object is a Python string, a `String`
  that may contain NUL characters; what the C code reads through the `char *`
  to its characters is `c_str`, the characters before the first NUL.  An
  argument of type `const char *` is a C string to begin with.
-/

namespace Rendermodes

/-- A C pointer to a heap block: an address, with `0` standing for `NULL`. -/
abbrev Ptr := Nat

/-- Python values, as far as the C file and the argument parser inspect
them; a Python float is given by the bit pattern of its C `double`. -/
inductive PyObject where
  | none
  | int (n : Int)
  | float (bits : Nat)
  | str (s : String)
  | tuple (items : List PyObject)
  | dict (items : List (String × PyObject))

/-- The Python object describing one primitive (`PyObject *prim`, also the
`support` argument of the option helper), seen through the two attributes
the C file reads; an attribute that is not set is `none`. -/
structure PyPrimitive where
  name : Option String
  option_values : Option PyObject

/-- Exceptions raised through the interpreter by the functions of the file. -/
inductive PyErr where
  | AttributeError (attr : String)
  | RuntimeError (msg : String)
  | TypeError (msg : String)
  deriving DecidableEq, Repr

/-- Observable events of a run, in the order in which the C code performs them. -/
inductive Event where
  | calloc (p : Ptr)
  | free (p : Ptr)
  | start (kind : String) (inst : Ptr)
  | finish (slot : Nat) (inst : Ptr)
  | occluded (slot : Nat)
  | hidden (slot : Nat)
  | draw (slot : Nat)
  deriving DecidableEq, Repr

/-- Allocator state: `brk` is the last address handed out, `live` the blocks
that are allocated and not yet freed. -/
structure Heap where
  brk : Nat
  live : List Ptr
  deriving DecidableEq, Repr

/-- The state a run of the engine acts on. -/
structure Machine (W : Type) where
  heap : Heap
  log : List Event
  world : W

/-- Modelled from the spec: the capability record `RenderPrimitiveInterface`
is declared in `overviewer.h`, which is not part of the sources at hand.  The
fields are those the C file dereferences (`name`, `data_size`, `start`,
`finish`, `occluded`, `hidden`, `draw`); a hook that is a `NULL` function
pointer is `none`.  Signatures follow the call sites and the hook table of
the specification: `start` returns a status (non-zero is failure) and may
change the world, `finish` and `draw` return nothing and may change the
world, `occluded` and `hidden` are queries that return a C `int`. -/
structure RenderPrimitiveInterface (W : Type) where
  name : String
  data_size : Nat
  start : Option (Ptr → Ptr → PyPrimitive → W → Int × W)
  finish : Option (Ptr → Ptr → W → W)
  occluded : Option (Ptr → Ptr → Int → Int → Int → W → Int)
  hidden : Option (Ptr → Ptr → Int → Int → Int → W → Int)
  draw : Option (Ptr → Ptr → Ptr → Ptr → Ptr → W → W)

/-- Modelled from the spec: `RenderPrimitive` is declared in `overviewer.h`
(not part of the sources at hand).  A record holds the two fields the C file
uses, `iface` and `primitive` (the data block, `NULL` when the kind needs
none); `addr` is the address of the record itself. -/
structure RenderPrimitive (W : Type) where
  addr : Ptr
  iface : RenderPrimitiveInterface W
  primitive : Ptr

/-- Modelled from the spec: `RenderMode` is declared in `overviewer.h` (not
part of the sources at hand).  `state` is the borrowed `RenderState` pointer,
`primitives` the slot array, a `NULL` slot being `none`; `addr` and
`primitives_addr` are the addresses of the record and of the array. -/
structure RenderMode (W : Type) where
  addr : Ptr
  state : Ptr
  primitives_addr : Ptr
  primitives : List (Option (RenderPrimitive W))

/-- The field `num_primitives`: the length of the slot array. -/
def RenderMode.num_primitives {W : Type} (self : RenderMode W) : Nat :=
  self.primitives.length

/-- Why building a primitive or a mode returned `NULL`. -/
inductive CreateError where
  | raised (e : PyErr)
  | start_failed (status : Int)
  deriving DecidableEq, Repr

/-- `calloc`: hand out the next fresh address. -/
def calloc {W : Type} (m : Machine W) : Ptr × Machine W :=
  let p := m.heap.brk + 1
  (p, { m with heap := { brk := p, live := p :: m.heap.live },
               log := m.log ++ [Event.calloc p] })

/-- `free`: release a block; `free(NULL)` does nothing. -/
def free {W : Type} (p : Ptr) (m : Machine W) : Machine W :=
  if p = 0 then m
  else { m with heap := { m.heap with live := m.heap.live.erase p },
                log := m.log ++ [Event.free p] }

/-- The C string at a `char *` that points to the characters of `s` (the
result of `PyString_AsString`, or a `const char *` of the table): the
characters before the first NUL. -/
def c_str (s : String) : String :=
  String.mk (s.toList.takeWhile (fun c => c ≠ Char.ofNat 0))

/-- `strcmp`: `0` when the two C strings are equal, negative when the first
comes first in the order of the characters, positive otherwise. -/
def strcmp (a b : String) : Int :=
  if c_str a = c_str b then 0
  else if (c_str a).toList < (c_str b).toList then -1 else 1

/-- `render_primitive_create` (lines 33-80): resolve the kind by name in the
`NULL`-terminated table `render_primitives`, allocate the record and, if the
kind asks for one, the data block, then run `start`.  The bound variable
`name` is the Python string `pyname`; the C variable `name`, the `char *`
that `PyString_AsString` returns for it, is read by `strcmp` and by the `%s`
of `PyErr_Format` up to its first NUL. -/
def render_primitive_create {W : Type}
    (render_primitives : List (RenderPrimitiveInterface W))
    (prim : PyPrimitive) (state : Ptr) (m : Machine W) :
    Except CreateError (RenderPrimitive W) × Machine W :=
  match prim.name with
  | none => (.error (.raised (.AttributeError "name")), m)
  | some name =>
    match render_primitives.find? (fun r => strcmp r.name name == 0) with
    | none =>
      (.error (.raised (.RuntimeError ("invalid primitive name: " ++ c_str name))), m)
    | some iface =>
      let (ret, m1) := calloc m
      if ret = 0 then
        (.error (.raised (.RuntimeError "Failed to alloc a render primitive")), m1)
      else
        let (primitive, m2) := if iface.data_size > 0 then calloc m1 else (0, m1)
        if iface.data_size > 0 ∧ primitive = 0 then
          (.error (.raised (.RuntimeError "Failed to alloc render primitive data")),
            free ret m2)
        else
          match iface.start with
          | some start =>
            let (status, w) := start primitive state prim m2.world
            let m3 := { m2 with world := w, log := m2.log ++ [Event.start iface.name ret] }
            if status ≠ 0 then
              (.error (.start_failed status), free ret (free primitive m3))
            else
              (.ok ⟨ret, iface, primitive⟩, m3)
          | none => (.ok ⟨ret, iface, primitive⟩, m2)

/-- The loop of `render_mode_destroy` (lines 114-127), from slot `i` on. -/
def destroy_loop {W : Type} (state : Ptr) :
    List (Option (RenderPrimitive W)) → Nat → Machine W → Machine W
  | [], _, m => m
  | none :: rest, i, m => destroy_loop state rest (i + 1) m
  | some prim :: rest, i, m =>
    let m1 := match prim.iface.finish with
      | some finish =>
        { m with world := finish prim.primitive state m.world,
                 log := m.log ++ [Event.finish i prim.addr] }
      | none => m
    let m2 := if prim.primitive ≠ 0 then free prim.primitive m1 else m1
    destroy_loop state rest (i + 1) (free prim.addr m2)

/-- `render_mode_destroy` (lines 111-130). -/
def render_mode_destroy {W : Type} (self : RenderMode W) (m : Machine W) : Machine W :=
  free self.addr (free self.primitives_addr (destroy_loop self.state self.primitives 0 m))

/-- The loop of `render_mode_create` (lines 95-106), from descriptor `i` on;
`ret` is the mode under construction. -/
def create_loop {W : Type} (render_primitives : List (RenderPrimitiveInterface W))
    (state : Ptr) :
    List PyPrimitive → Nat → RenderMode W → Machine W →
      Except CreateError (RenderMode W) × Machine W
  | [], _, ret, m => (.ok ret, m)
  | pyprim :: rest, i, ret, m =>
    match render_primitive_create render_primitives pyprim state m with
    | (.error e, m1) => (.error e, render_mode_destroy ret m1)
    | (.ok prim, m1) =>
      create_loop render_primitives state rest (i + 1)
        { ret with primitives := ret.primitives.set i (some prim) } m1

/-- `render_mode_create` (lines 82-109).  The argument `mode` is `none` when
the Python object is not a sequence (`PySequence_Fast` fails) and the list of
its items otherwise. -/
def render_mode_create {W : Type} (render_primitives : List (RenderPrimitiveInterface W))
    (mode : Option (List PyPrimitive)) (state : Ptr) (m : Machine W) :
    Except CreateError (RenderMode W) × Machine W :=
  match mode with
  | none => (.error (.raised (.TypeError "Mode is not a sequence type")), m)
  | some mode_fast =>
    let (ret, m1) := calloc m
    let (primitives, m2) := calloc m1
    create_loop render_primitives state mode_fast 0
      ⟨ret, state, primitives, List.replicate mode_fast.length none⟩ m2

/-- The loop of `render_mode_occluded` (lines 135-143), from slot `i` on with
accumulator `occluded`; dereferencing a `NULL` slot has no result. -/
def occluded_loop {W : Type} (state : Ptr) (x y z : Int) :
    List (Option (RenderPrimitive W)) → Nat → Int → Machine W → Option (Int × Machine W)
  | [], _, occluded, m => some (occluded, m)
  | none :: _, _, _, _ => none
  | some prim :: rest, i, occluded, m =>
    let (occluded1, m1) := match prim.iface.occluded with
      | some hook =>
        (Int.lor occluded (hook prim.primitive state x y z m.world),
          { m with log := m.log ++ [Event.occluded i] })
      | none => (occluded, m)
    if occluded1 ≠ 0 then some (occluded1, m1)
    else occluded_loop state x y z rest (i + 1) occluded1 m1

/-- `render_mode_occluded` (lines 132-145). -/
def render_mode_occluded {W : Type} (self : RenderMode W) (x y z : Int) (m : Machine W) :
    Option (Int × Machine W) :=
  occluded_loop self.state x y z self.primitives 0 0 m

/-- The loop of `render_mode_hidden` (lines 150-158), from slot `i` on with
accumulator `hidden`; dereferencing a `NULL` slot has no result. -/
def hidden_loop {W : Type} (state : Ptr) (x y z : Int) :
    List (Option (RenderPrimitive W)) → Nat → Int → Machine W → Option (Int × Machine W)
  | [], _, hidden, m => some (hidden, m)
  | none :: _, _, _, _ => none
  | some prim :: rest, i, hidden, m =>
    let (hidden1, m1) := match prim.iface.hidden with
      | some hook =>
        (Int.lor hidden (hook prim.primitive state x y z m.world),
          { m with log := m.log ++ [Event.hidden i] })
      | none => (hidden, m)
    if hidden1 ≠ 0 then some (hidden1, m1)
    else hidden_loop state x y z rest (i + 1) hidden1 m1

/-- `render_mode_hidden` (lines 147-160). -/
def render_mode_hidden {W : Type} (self : RenderMode W) (x y z : Int) (m : Machine W) :
    Option (Int × Machine W) :=
  hidden_loop self.state x y z self.primitives 0 0 m

/-- The loop of `render_mode_draw` (lines 164-169), from slot `i` on;
dereferencing a `NULL` slot has no result. -/
def draw_loop {W : Type} (state img mask mask_light : Ptr) :
    List (Option (RenderPrimitive W)) → Nat → Machine W → Option (Machine W)
  | [], _, m => some m
  | none :: _, _, _ => none
  | some prim :: rest, i, m =>
    let m1 := match prim.iface.draw with
      | some hook =>
        { m with world := hook prim.primitive state img mask mask_light m.world,
                 log := m.log ++ [Event.draw i] }
      | none => m
    draw_loop state img mask mask_light rest (i + 1) m1

/-- `render_mode_draw` (lines 162-170). -/
def render_mode_draw {W : Type} (self : RenderMode W) (img mask mask_light : Ptr)
    (m : Machine W) : Option (Machine W) :=
  draw_loop self.state img mask mask_light self.primitives 0 m

/-- `PyDict_GetItemString`: the value stored under `key`, `NULL` (without an
exception) when the key is missing or the object is not a dictionary. -/
def PyDict_GetItemString : PyObject → String → Option PyObject
  | .dict items, key => items.lookup key
  | _, _ => none

/-- `PyTuple_Check`. -/
def PyTuple_Check : PyObject → Bool
  | .tuple _ => true
  | _ => false

/-- What a call of the interpreter's `PyArg_VaParse` leaves behind: the `int`
it returns (non-zero on success, `0` on failure), the caller's output
variables after the call, and the message of the exception it raised when it
failed. -/
structure VaParseResult (O : Type) where
  ret : Int
  out : O
  errvalue : String

/-- What a call of `render_mode_parse_option` leaves behind: the `int` it
returns, the caller's output variables, and the exception it leaves pending
(`none` when it raised nothing). -/
structure ParseOutcome (O : Type) where
  ret : Int
  out : O
  raised : Option PyErr

/-- `render_mode_parse_option` (lines 173-221).  `PyArg_VaParse` belongs to
the interpreter and is a parameter; `ap` holds the caller's output variables
(the variadic arguments), `support` and `name` are `none` when `NULL`. -/
def render_mode_parse_option {O : Type}
    (PyArg_VaParse : PyObject → String → O → VaParseResult O)
    (support : Option PyPrimitive) (name : Option String) (format : String) (ap : O) :
    ParseOutcome O :=
  match support, name with
  | none, _ => ⟨1, ap, none⟩
  | some _, none => ⟨1, ap, none⟩
  | some support, some name =>
    match support.option_values with
    | none => ⟨1, ap, some (.AttributeError "option_values")⟩
    | some dict =>
      match PyDict_GetItemString dict name with
      | none => ⟨1, ap, none⟩
      | some item =>
        let item := if PyTuple_Check item then item else PyObject.tuple [item]
        let r := PyArg_VaParse item format ap
        if r.ret = 0 then
          ⟨r.ret, r.out, some (.TypeError
            ("rendermode option \"" ++ name ++ "\" has incorrect type (" ++ r.errvalue ++ ")"))⟩
        else
          ⟨r.ret, r.out, none⟩

/-! ## Vocabulary of the statements -/

/-- A mode is fully built when no slot of its array is `NULL`. -/
def fully_built {W : Type} (self : RenderMode W) : Prop :=
  self.primitives.all Option.isSome = true

/-- The value the `occluded` hook of slot `j` returns at `(x, y, z)` in world
`w`; `0` when the slot has no such hook. -/
def occluded_at {W : Type} (self : RenderMode W) (x y z : Int) (w : W) (j : Nat) : Int :=
  match self.primitives[j]? with
  | some (some prim) =>
    match prim.iface.occluded with
    | some hook => hook prim.primitive self.state x y z w
    | none => 0
  | _ => 0

/-- Whether the kind bound to slot `j` defines an `occluded` hook. -/
def defines_occluded {W : Type} (self : RenderMode W) (j : Nat) : Bool :=
  match self.primitives[j]? with
  | some (some prim) => prim.iface.occluded.isSome
  | _ => false

/-- Whether the kind bound to slot `j` defines a `hidden` hook. -/
def defines_hidden {W : Type} (self : RenderMode W) (j : Nat) : Bool :=
  match self.primitives[j]? with
  | some (some prim) => prim.iface.hidden.isSome
  | _ => false

/-- Whether the kind bound to slot `j` defines a `draw` hook. -/
def defines_draw {W : Type} (self : RenderMode W) (j : Nat) : Bool :=
  match self.primitives[j]? with
  | some (some prim) => prim.iface.draw.isSome
  | _ => false

/-- The events of one pass over `prims`, numbered from `i`: an event for
each instance that satisfies `defines`. -/
def hook_trace {W : Type} (defines : RenderPrimitive W → Bool) (ev : Nat → Event) :
    List (RenderPrimitive W) → Nat → List Event
  | [], _ => []
  | p :: ps, i => (if defines p then [ev i] else []) ++ hook_trace defines ev ps (i + 1)

/-- The value of the `occluded` hook of one instance, `0` without a hook. -/
def occluded_value {W : Type} (state : Ptr) (x y z : Int) (w : W) (p : RenderPrimitive W) : Int :=
  match p.iface.occluded with
  | some hook => hook p.primitive state x y z w
  | none => 0

/-- The kind `iface` with its `occluded` hook replaced by its `hidden` hook. -/
def hidden_as_occluded {W : Type} (iface : RenderPrimitiveInterface W) :
    RenderPrimitiveInterface W :=
  { iface with occluded := iface.hidden }

/-- The instance `p` with the `occluded` hook of its kind replaced by the
`hidden` hook. -/
def RenderPrimitive.hidden_as_occluded {W : Type} (p : RenderPrimitive W) :
    RenderPrimitive W :=
  { p with iface := Rendermodes.hidden_as_occluded p.iface }

/-- The mode `self` with, in every slot, the `occluded` hook replaced by the
`hidden` hook of the same instance. -/
def RenderMode.hidden_as_occluded {W : Type} (self : RenderMode W) : RenderMode W :=
  { self with primitives := self.primitives.map (Option.map RenderPrimitive.hidden_as_occluded) }

/-- The effect on the world of the `draw` hook of one instance; nothing
happens without a hook. -/
def draw_step {W : Type} (state img mask mask_light : Ptr) (w : W) (p : RenderPrimitive W) : W :=
  match p.iface.draw with
  | some hook => hook p.primitive state img mask mask_light w
  | none => w

/-- The kind a descriptor names: the first entry of the table whose name
`strcmp` finds equal to the `name` attribute; `none` when the attribute is
missing or no entry compares equal. -/
def resolve {W : Type} (render_primitives : List (RenderPrimitiveInterface W))
    (prim : PyPrimitive) : Option (RenderPrimitiveInterface W) :=
  match prim.name with
  | none => none
  | some name => render_primitives.find? (fun r => strcmp r.name name == 0)

/-- A descriptor is accepted when its kind resolves and the `start` hook of
the kind, if there is one, reports success on it. -/
def accepts {W : Type} (render_primitives : List (RenderPrimitiveInterface W))
    (state : Ptr) (prim : PyPrimitive) : Prop :=
  ∃ iface, resolve render_primitives prim = some iface ∧
    ∀ start, iface.start = some start → ∀ (p : Ptr) (w : W), (start p state prim w).1 = 0

/-- The addresses a log allocates, in order. -/
def callocs (evs : List Event) : List Ptr :=
  evs.filterMap (fun e => match e with
    | Event.calloc p => some p
    | _ => none)

/-- The addresses a log frees, in order. -/
def frees (evs : List Event) : List Ptr :=
  evs.filterMap (fun e => match e with
    | Event.free p => some p
    | _ => none)

/-- The slots whose `finish` hook a log invokes, in order. -/
def finishes (evs : List Event) : List Nat :=
  evs.filterMap (fun e => match e with
    | Event.finish slot _ => some slot
    | _ => none)

/-- The kinds whose `start` hook a log invokes, in order. -/
def starts (evs : List Event) : List String :=
  evs.filterMap (fun e => match e with
    | Event.start kind _ => some kind
    | _ => none)

/-- The heap blocks an instance owns, in the order in which
`render_mode_destroy` frees them: the data block, then the record. -/
def blocks {W : Type} (p : RenderPrimitive W) : List Ptr :=
  (if p.primitive ≠ 0 then [p.primitive] else []) ++ (if p.addr ≠ 0 then [p.addr] else [])

/-- The events of the successful construction of an instance. -/
def create_events {W : Type} (p : RenderPrimitive W) : List Event :=
  [Event.calloc p.addr] ++ (if p.primitive ≠ 0 then [Event.calloc p.primitive] else []) ++
    (if p.iface.start.isSome then [Event.start p.iface.name p.addr] else [])

/-- The events of the loop of `render_mode_destroy` over `slots`, numbered
from `i`. -/
def destroy_events {W : Type} : List (Option (RenderPrimitive W)) → Nat → List Event
  | [], _ => []
  | none :: rest, i => destroy_events rest (i + 1)
  | some p :: rest, i =>
    (if p.iface.finish.isSome then [Event.finish i p.addr] else []) ++
      (if p.primitive ≠ 0 then [Event.free p.primitive] else []) ++
      (if p.addr ≠ 0 then [Event.free p.addr] else []) ++ destroy_events rest (i + 1)

/-- The effect on the world of the `finish` hook of one instance; nothing
happens without a hook. -/
def finish_step {W : Type} (state : Ptr) (w : W) (p : RenderPrimitive W) : W :=
  match p.iface.finish with
  | some finish => finish p.primitive state w
  | none => w

/-- Whether the kind the descriptor at position `j` names defines `finish`. -/
def kind_defines_finish {W : Type} (render_primitives : List (RenderPrimitiveInterface W))
    (mode : List PyPrimitive) (j : Nat) : Bool :=
  match mode[j]? with
  | some prim =>
    match resolve render_primitives prim with
    | some iface => iface.finish.isSome
    | none => false
  | none => false

/-! ## A worked example: the two primitives of the end-to-end scenario

The world is the value of the pixel under the brush.  `P1` never occludes and
paints the pixel `10`; `P2` occludes below `z = 0`, keeps a data block and
paints the pixel `20`. -/

/-- The kind `P1`: `occluded` always false, `draw` paints `10`. -/
def P1 : RenderPrimitiveInterface Nat where
  name := "P1"
  data_size := 0
  start := none
  finish := none
  occluded := some (fun _ _ _ _ _ _ => 0)
  hidden := none
  draw := some (fun _ _ _ _ _ _ => 10)

/-- The kind `P2`: `occluded` true when `z < 0`, `draw` paints `20`. -/
def P2 : RenderPrimitiveInterface Nat where
  name := "P2"
  data_size := 4
  start := some (fun _ _ _ w => (0, w))
  finish := some (fun _ _ w => w)
  occluded := some (fun _ _ _ _ z _ => if z < 0 then 1 else 0)
  hidden := some (fun _ _ x _ _ _ => if x < 0 then 1 else 0)
  draw := some (fun _ _ _ _ _ _ => 20)

/-- The mode `[P1, P2]`, as `render_mode_create` lays it out on an empty heap. -/
def example_mode : RenderMode Nat :=
  ⟨1, 100, 2, [some ⟨3, P1, 0⟩, some ⟨4, P2, 5⟩]⟩

/-- A machine with an empty heap, an empty log and the pixel at `0`. -/
def example_machine : Machine Nat :=
  ⟨⟨0, []⟩, [], 0⟩

/-- The table of the example: the kinds `P1` and `P2`. -/
def example_primitives : List (RenderPrimitiveInterface Nat) :=
  [P1, P2]

/-- The descriptor sequence `[P1, P2]`. -/
def example_descriptors : List PyPrimitive :=
  [⟨some "P1", none⟩, ⟨some "P2", none⟩]

/-- The kind `P3`: keeps a data block, and its `start` hook always reports
failure. -/
def P3 : RenderPrimitiveInterface Nat where
  name := "P3"
  data_size := 8
  start := some (fun _ _ _ w => (1, w))
  finish := some (fun _ _ w => w)
  occluded := none
  hidden := none
  draw := none

/-- The table `[P1, P2, P3]`. -/
def failing_primitives : List (RenderPrimitiveInterface Nat) :=
  [P1, P2, P3]

/-- The integers of a list of Python integers; `none` when an item is not
an integer. -/
def as_ints : List PyObject → Option (List Int)
  | [] => some []
  | PyObject.int n :: rest => (as_ints rest).map (fun vals => n :: vals)
  | _ :: _ => none

/-- A stand-in for the interpreter's `PyArg_VaParse`, used in the examples
only, for formats made of `i` units and output variables that are a list of
integers: a tuple of as many Python integers as the format has units is
unpacked into the variables and the call returns `1`; any other argument
leaves the variables alone and returns `0` with a message. -/
def parse_ints (args : PyObject) (format : String) (ap : List Int) :
    VaParseResult (List Int) :=
  match args with
  | PyObject.tuple items =>
    if format.toList.all (fun c => c == 'i') ∧ items.length = format.length then
      match as_ints items with
      | some vals => ⟨1, vals, ""⟩
      | none => ⟨0, ap, "an integer is required"⟩
    else ⟨0, ap, "wrong number of arguments"⟩
  | _ => ⟨0, ap, "argument list is not a tuple"⟩

/-- A primitive object whose options hold `color = (1, 2, 3)`. -/
def support_with_color : PyPrimitive :=
  ⟨some "P1", some (PyObject.dict
    [("color", PyObject.tuple [PyObject.int 1, PyObject.int 2, PyObject.int 3])])⟩

/-- A primitive object whose options are empty. -/
def support_without_options : PyPrimitive :=
  ⟨some "P1", some (PyObject.dict [])⟩

/-- A primitive object whose options hold `strength = (x,)`, `x` the float
of bit pattern `4602678819172646912` (the number `0.5`). -/
def support_with_strength : PyPrimitive :=
  ⟨some "P1", some (PyObject.dict
    [("strength", PyObject.tuple [PyObject.float 4602678819172646912])])⟩

/-- A primitive object whose options hold `color = "red"`. -/
def support_with_red : PyPrimitive :=
  ⟨some "P1", some (PyObject.dict [("color", PyObject.str "red")])⟩

/-- The value the `hidden` hook of slot `j` returns at `(x, y, z)` in world
`w`; `0` when the slot has no such hook. -/
def hidden_at {W : Type} (self : RenderMode W) (x y z : Int) (w : W) (j : Nat) : Int :=
  match self.primitives[j]? with
  | some (some prim) =>
    match prim.iface.hidden with
    | some hook => hook prim.primitive self.state x y z w
    | none => 0
  | _ => 0

/-- The kind `P4`: its `occluded` hook answers `6` and its `hidden` hook
answers `-2`, whatever the voxel. -/
def P4 : RenderPrimitiveInterface Nat where
  name := "P4"
  data_size := 0
  start := none
  finish := none
  occluded := some (fun _ _ _ _ _ _ => 6)
  hidden := some (fun _ _ _ _ _ _ => -2)
  draw := none

/-- The mode `[P1, P4]`. -/
def example_mode_six : RenderMode Nat :=
  ⟨1, 100, 2, [some ⟨3, P1, 0⟩, some ⟨4, P4, 0⟩]⟩

/-- The events of the teardown of slot `i`: nothing for a `NULL` slot;
otherwise the `finish` hook if the kind defines one, then the release of the
data block, then the release of the record. -/
def slot_teardown {W : Type} (i : Nat) (slot : Option (RenderPrimitive W)) : List Event :=
  match slot with
  | none => []
  | some p =>
    (if p.iface.finish.isSome then [Event.finish i p.addr] else []) ++
      (if p.primitive ≠ 0 then [Event.free p.primitive] else []) ++
      (if p.addr ≠ 0 then [Event.free p.addr] else [])

/-- Whether slot `j` is filled with an instance whose kind defines `finish`. -/
def defines_finish {W : Type} (self : RenderMode W) (j : Nat) : Bool :=
  match self.primitives[j]? with
  | some (some prim) => prim.iface.finish.isSome
  | _ => false

/-- The names of the kinds whose `start` hook a run over the descriptors
`ds` has to invoke, in list order: one entry for each descriptor whose kind
resolves and defines `start`. -/
def started_kinds {W : Type} (render_primitives : List (RenderPrimitiveInterface W))
    (ds : List PyPrimitive) : List String :=
  ((ds.filterMap (resolve render_primitives)).filter (fun iface => iface.start.isSome)).map
    (fun iface => iface.name)

/-! ## The contract of the argument parser -/

/-- The C values an unpacking writes into the caller's variables: an `int`,
a `double` (by its bit pattern), a `float` (`single bits` is the `double` of
that bit pattern narrowed to single precision, `(float) x`) and a
`const char *`. -/
inductive CValue where
  | int (n : Int)
  | double (bits : Nat)
  | single (bits : Nat)
  | str (s : String)
  deriving DecidableEq, Repr

/-- Conversion of one tuple element by one format unit, after the
documentation of the interpreter: the unit `i` takes a Python integer that
fits a C `int`, the units `d` and `f` take a Python float (as a `double`, and
narrowed to a `float`), the unit `s` takes a Python string without a NUL
character; nothing else converts. -/
def convert_unit (unit : Char) (arg : PyObject) : Option CValue :=
  match arg with
  | PyObject.int n =>
    if unit = 'i' ∧ -2147483648 ≤ n ∧ n ≤ 2147483647 then some (CValue.int n) else none
  | PyObject.float bits =>
    if unit = 'd' then some (CValue.double bits)
    else if unit = 'f' then some (CValue.single bits) else none
  | PyObject.str s =>
    if unit = 's' ∧ Char.ofNat 0 ∉ s.toList then some (CValue.str s) else none
  | _ => none

/-- The values a tuple unpacks to under a format: the tuple must have one
element per unit and every element must convert; `none` on a mismatch of
arity or of the type of a slot. -/
def unpack : List Char → List PyObject → Option (List CValue)
  | [], [] => some []
  | u :: us, a :: rest =>
    match convert_unit u a with
    | some v => (unpack us rest).map (fun vs => v :: vs)
    | none => none
  | _, _ => none

/-- What the helper relies on from `PyArg_VaParse`: a tuple that matches the
format is unpacked into the first output variables, in order, with a non-zero
return value; under a format made of the units `i` and `s`, a tuple that does
not match yields `0`. -/
def honours_format
    (PyArg_VaParse : PyObject → String → List CValue → VaParseResult (List CValue)) : Prop :=
  ∀ (items : List PyObject) (format : String) (ap : List CValue),
    (∀ vals, unpack format.toList items = some vals →
      (PyArg_VaParse (PyObject.tuple items) format ap).ret ≠ 0 ∧
      (PyArg_VaParse (PyObject.tuple items) format ap).out = vals ++ ap.drop vals.length) ∧
    ((∀ u ∈ format.toList, u = 'i' ∨ u = 's') → unpack format.toList items = none →
      (PyArg_VaParse (PyObject.tuple items) format ap).ret = 0)

/-- The conversion loop of the model parser: convert the elements one after
the other, writing each value into the next output variable; stop with `0` at
the first element that does not convert, leaving the later variables alone. -/
def convert_loop : List Char → List PyObject → List CValue → List CValue →
    VaParseResult (List CValue)
  | u :: us, a :: rest, done, ap =>
    match convert_unit u a with
    | some v => convert_loop us rest (done ++ [v]) ap
    | none =>
      ⟨0, done ++ ap.drop done.length,
        if u = 'i' then "an integer is required"
        else if u = 'd' ∨ u = 'f' then "a float is required" else "must be string"⟩
  | _, _, done, ap => ⟨1, done ++ ap.drop done.length, ""⟩

/-- A model of the interpreter's `PyArg_VaParse` for the units `i`, `d`, `f`
and `s`: the argument must be a tuple with one element per unit, and the
elements are converted in order. -/
def PyArg_VaParse_units (args : PyObject) (format : String) (ap : List CValue) :
    VaParseResult (List CValue) :=
  match args with
  | PyObject.tuple items =>
    if items.length = format.toList.length then convert_loop format.toList items [] ap
    else ⟨0, ap, "wrong number of arguments"⟩
  | _ => ⟨0, ap, "argument list is not a tuple"⟩

/-- The tuple the helper hands to the parser for a stored value: the value
itself when it is a tuple, the one-element tuple around it otherwise. -/
def wrap_items : PyObject → List PyObject
  | PyObject.tuple items => items
  | v => [v]

/-! ## Reference counting in the option helper -/

/-- The Python objects to which `render_mode_parse_option` holds references:
the mapping `option_values` of the bag, the value stored under the name, the
one-element tuple built around a value that is not a tuple, and the three
parts of the exception fetched from the interpreter. -/
inductive PyRef where
  | option_values
  | value
  | wrapper
  | errtype
  | errvalue
  | errtraceback
  deriving DecidableEq, Repr

/-- The reference operations of the helper: `acquire r` when the call comes
to own a reference to `r` (a new reference returned by
`PyObject_GetAttrString` or `PyTuple_Pack`, a `Py_INCREF`, or a reference
handed over by `PyErr_Fetch`), `release r` for `Py_DECREF` or `Py_XDECREF` on
a `r` that is not `NULL`. -/
inductive RefOp where
  | acquire (r : PyRef)
  | release (r : PyRef)
  deriving DecidableEq, Repr

/-- `render_mode_parse_option` (lines 173-221) with its reference operations
logged in program order.  `errtraceback` tells whether `PyErr_Fetch` yields a
traceback (`Py_XDECREF` skips a `NULL` one). -/
def render_mode_parse_option_refs {O : Type}
    (PyArg_VaParse : PyObject → String → O → VaParseResult O)
    (support : Option PyPrimitive) (name : Option String) (format : String) (ap : O)
    (errtraceback : Bool) : ParseOutcome O × List RefOp :=
  match support, name with
  | none, _ => (⟨1, ap, none⟩, [])
  | some _, none => (⟨1, ap, none⟩, [])
  | some support, some name =>
    match support.option_values with
    | none => (⟨1, ap, some (.AttributeError "option_values")⟩, [])
    | some dict =>
      let ops1 := [RefOp.acquire PyRef.option_values]
      match PyDict_GetItemString dict name with
      | none => (⟨1, ap, none⟩, ops1 ++ [RefOp.release PyRef.option_values])
      | some item =>
        let held := if PyTuple_Check item then PyRef.value else PyRef.wrapper
        let item := if PyTuple_Check item then item else PyObject.tuple [item]
        let ops2 := ops1 ++ [RefOp.acquire held]
        let r := PyArg_VaParse item format ap
        let ops3 := ops2 ++ [RefOp.release held, RefOp.release PyRef.option_values]
        if r.ret = 0 then
          (⟨r.ret, r.out, some (.TypeError
            ("rendermode option \"" ++ name ++ "\" has incorrect type (" ++ r.errvalue ++ ")"))⟩,
            ops3 ++ [RefOp.acquire PyRef.errtype, RefOp.acquire PyRef.errvalue] ++
              (if errtraceback then [RefOp.acquire PyRef.errtraceback] else []) ++
              [RefOp.release PyRef.errtype, RefOp.release PyRef.errvalue] ++
              (if errtraceback then [RefOp.release PyRef.errtraceback] else []))
        else
          (⟨r.ret, r.out, none⟩, ops3)

/-- The references a call owns after the operations `ops`, starting from
`owned`; `none` when it releases a reference it does not own. -/
def owned_after : List PyRef → List RefOp → Option (List PyRef)
  | owned, [] => some owned
  | owned, RefOp.acquire r :: ops => owned_after (r :: owned) ops
  | owned, RefOp.release r :: ops =>
    if r ∈ owned then owned_after (owned.erase r) ops else none

/-- The references a list of operations acquires, in order. -/
def acquired (ops : List RefOp) : List PyRef :=
  ops.filterMap (fun op => match op with
    | RefOp.acquire r => some r
    | RefOp.release _ => none)

/-- The reference counts of the bag's mapping, of the stored value and of the
wrapper tuple (`0` while the tuple does not exist). -/
structure RefCounts where
  option_values : Int
  value : Int
  wrapper : Int
  deriving DecidableEq, Repr

/-- The effect of one reference operation on the counts.  `PyTuple_Pack`
creates the wrapper with one reference and takes a reference to the value;
releasing the last reference to the wrapper deallocates it, which releases
the value.  The parts of the fetched exception are not counted here: their
references are handed over by the interpreter. -/
def apply_op (c : RefCounts) : RefOp → RefCounts
  | RefOp.acquire PyRef.option_values => { c with option_values := c.option_values + 1 }
  | RefOp.release PyRef.option_values => { c with option_values := c.option_values - 1 }
  | RefOp.acquire PyRef.value => { c with value := c.value + 1 }
  | RefOp.release PyRef.value => { c with value := c.value - 1 }
  | RefOp.acquire PyRef.wrapper => { c with wrapper := 1, value := c.value + 1 }
  | RefOp.release PyRef.wrapper =>
    if c.wrapper = 1 then { c with wrapper := 0, value := c.value - 1 }
    else { c with wrapper := c.wrapper - 1 }
  | _ => c

/-! ## The traversals on a record held in memory

The three traversals take the mode by pointer and read it through that pointer
at every iteration.  In the definitions below the mode lives in the memory the
hooks act on: `record w` is the record `*self`, with its slot array and its
instance records, as the world `w` holds it, so that a hook that writes the
world may write the mode.  Every iteration reads `self->num_primitives`,
`self->primitives[i]` and `self->state` afresh.  The first argument bounds the
number of times the loop condition is evaluated: the result is `none` when the
bound is used up, and when a `NULL` slot is dereferenced. -/

/-- The loop of `render_mode_draw` (lines 164-169) on a record held in
memory, from index `i` on. -/
def draw_resident {W : Type} (record : W → RenderMode W) (img mask mask_light : Ptr) :
    Nat → Nat → Machine W → Option (Machine W)
  | 0, _, _ => none
  | fuel + 1, i, m =>
    if i < (record m.world).num_primitives then
      match (record m.world).primitives[i]? with
      | some (some prim) =>
        let m1 := match prim.iface.draw with
          | some hook =>
            { m with world := hook prim.primitive (record m.world).state img mask mask_light
                       m.world,
                     log := m.log ++ [Event.draw i] }
          | none => m
        draw_resident record img mask mask_light fuel (i + 1) m1
      | _ => none
    else some m

/-- `render_mode_draw` (lines 162-170) on a record held in memory. -/
def render_mode_draw_resident {W : Type} (record : W → RenderMode W)
    (img mask mask_light : Ptr) (fuel : Nat) (m : Machine W) : Option (Machine W) :=
  draw_resident record img mask mask_light fuel 0 m

/-- An example memory that holds a mode: the pixel under the brush and, for
each slot of the mode, the number of the kind of its instance. -/
structure Canvas where
  pixel : Nat
  kinds : List Nat

/-- The kinds of the example memory: kind `0` paints the pixel `10`, kind `1`
occludes below `z = 0` and paints the pixel `20`, and every other number is a
kind whose `draw` hook wipes the slots of the mode. -/
def canvas_kind : Nat → RenderPrimitiveInterface Canvas
  | 0 => ⟨"P1", 0, none, none, some (fun _ _ _ _ _ _ => 0), none,
      some (fun _ _ _ _ _ w => { w with pixel := 10 })⟩
  | 1 => ⟨"P2", 0, none, none, some (fun _ _ _ _ z _ => if z < 0 then 1 else 0),
      some (fun _ _ x _ _ _ => if x < 0 then 1 else 0),
      some (fun _ _ _ _ _ w => { w with pixel := 20 })⟩
  | _ => ⟨"wipe", 0, none, none, none, none,
      some (fun _ _ _ _ _ w => { w with kinds := [] })⟩

/-- The mode the example memory holds. -/
def canvas_record (w : Canvas) : RenderMode Canvas :=
  ⟨1, 100, 2, w.kinds.map (fun k => some ⟨3 + k, canvas_kind k, 0⟩)⟩

/-- A machine whose memory holds a mode with a wiping kind in its first
slot. -/
def wiped_machine : Machine Canvas :=
  ⟨⟨0, []⟩, [], ⟨0, [2, 0]⟩⟩

/-! ## Vocabulary of a run of `render_mode_create` -/

/-- The constructions the loop of `render_mode_create` performs on the
descriptors `ds`, one call of `render_primitive_create` after the other from
the machine `m` on: the instances built and the machine reached when every
call returns an instance, `none` as soon as one call fails. -/
def construct_all {W : Type} (render_primitives : List (RenderPrimitiveInterface W))
    (state : Ptr) :
    List PyPrimitive → Machine W → Option (List (RenderPrimitive W) × Machine W)
  | [], m => some ([], m)
  | d :: ds, m =>
    match render_primitive_create render_primitives d state m with
    | (.ok prim, m1) =>
      match construct_all render_primitives state ds m1 with
      | some (built, m2) => some (prim :: built, m2)
      | none => none
    | (.error _, _) => none

/-- The kind `P5`: its `start` hook counts its calls in the world and reports
success on a world that is `0` only, so that it succeeds the first time and
fails from then on. -/
def P5 : RenderPrimitiveInterface Nat where
  name := "P5"
  data_size := 8
  start := some (fun _ _ _ w => (if w = 0 then 0 else 1, w + 1))
  finish := some (fun _ _ w => w)
  occluded := none
  hidden := none
  draw := none

/-- The table `[P1, P2, P5]`. -/
def counting_primitives : List (RenderPrimitiveInterface Nat) :=
  [P1, P2, P5]

/-- The machine `render_mode_create` has reached on `example_machine` and the
table `[P1, P2, P3]` once it has allocated the mode and the slot array and
built the instance of the descriptor `P2`. -/
def machine_after_P2 : Machine Nat :=
  ⟨⟨4, [4, 3, 2, 1]⟩,
    [Event.calloc 1, Event.calloc 2, Event.calloc 3, Event.calloc 4, Event.start "P2" 3], 0⟩

/-- The machine `render_mode_create` has reached on `example_machine` and the
table `[P1, P2, P5]` once it has allocated the mode and the slot array and
built the instance of a first descriptor `P5`. -/
def machine_after_P5 : Machine Nat :=
  ⟨⟨4, [4, 3, 2, 1]⟩,
    [Event.calloc 1, Event.calloc 2, Event.calloc 3, Event.calloc 4, Event.start "P5" 3], 1⟩

/-- The Python string `P1`, NUL, `x`. -/
def name_with_nul : String :=
  String.mk ['P', '1', Char.ofNat 0, 'x']

/-! ## Basic facts -/

theorem lor_zero_left (v : Int) : Int.lor 0 v = v := by
  cases v with
  | ofNat n => simp [Int.lor]
  | negSucc n =>
    simp only [Int.lor]
    congr 1
    simp [Nat.ldiff, Nat.bitwise_zero_right]

theorem fully_built_iff {W : Type} (self : RenderMode W) :
    fully_built self ↔ ∃ prims : List (RenderPrimitive W), self.primitives = prims.map some := by
  unfold fully_built
  constructor
  · intro h
    generalize self.primitives = l at h
    induction l with
    | nil => exact ⟨[], rfl⟩
    | cons a t ih =>
      simp only [List.all_cons, Bool.and_eq_true] at h
      obtain ⟨ps, hps⟩ := ih h.2
      cases a with
      | none => simp at h
      | some p => exact ⟨p :: ps, by simp [hps]⟩
  · rintro ⟨prims, h⟩
    rw [h]
    simp

/-- The trace of a pass, as the increasing list of the slot numbers whose
instance satisfies `defines`. -/
theorem hook_trace_eq_range {W : Type} (defines : RenderPrimitive W → Bool) (ev : Nat → Event)
    (prims : List (RenderPrimitive W)) (i : Nat) :
    hook_trace defines ev prims i =
      ((List.range' i prims.length).filter
        (fun j => (prims[j - i]?.map defines).getD false)).map ev := by
  induction prims generalizing i with
  | nil => simp [hook_trace]
  | cons p ps ih =>
    simp only [hook_trace, List.length_cons, List.range'_succ]
    rw [List.filter_cons]
    have htail : (List.range' (i + 1) ps.length).filter
          (fun j => ((p :: ps)[j - i]?.map defines).getD false) =
        (List.range' (i + 1) ps.length).filter
          (fun j => (ps[j - (i + 1)]?.map defines).getD false) := by
      apply List.filter_congr
      intro j hj
      rw [List.mem_range'_1] at hj
      have : j - i = (j - (i + 1)) + 1 := by omega
      rw [this]
      simp
    rw [htail, ih (i + 1)]
    by_cases hd : defines p = true <;> simp [hd]

/-! ## The traversal of `render_mode_occluded` -/

/-- While every hook met so far has returned `0`, the loop walks the whole
list and evaluates each defined hook once. -/
theorem occluded_loop_all_zero {W : Type} (state : Ptr) (x y z : Int)
    (prims : List (RenderPrimitive W)) (i : Nat) (m : Machine W)
    (hz : ∀ q ∈ prims, occluded_value state x y z m.world q = 0) :
    occluded_loop state x y z (prims.map some) i 0 m =
      some (0, { m with log := (m.log ++
        hook_trace (fun p => p.iface.occluded.isSome) Event.occluded prims i) }) := by
  induction prims generalizing i m with
  | nil => simp [occluded_loop, hook_trace]
  | cons p ps ih =>
    have hp := hz p (List.mem_cons_self _ _)
    have hps : ∀ q ∈ ps, occluded_value state x y z m.world q = 0 :=
      fun q hq => hz q (List.mem_cons_of_mem _ hq)
    cases hocc : p.iface.occluded with
    | none =>
      simp only [List.map_cons, occluded_loop, hook_trace, hocc, ne_eq, not_true_eq_false,
        if_false, Option.isSome_none, Bool.false_eq_true, List.nil_append]
      exact ih (i + 1) m hps
    | some hook =>
      have hv : hook p.primitive state x y z m.world = 0 := by
        simpa [occluded_value, hocc] using hp
      simp only [List.map_cons, occluded_loop, hook_trace, hocc, hv, lor_zero_left, ne_eq,
        not_true_eq_false, if_false, Option.isSome_some, if_true]
      rw [ih (i + 1) { m with log := m.log ++ [Event.occluded i] } hps]
      simp [List.append_assoc]

/-- The loop stops at the first instance whose hook returns a non-zero value
and returns that value. -/
theorem occluded_loop_first {W : Type} (state : Ptr) (x y z : Int)
    (pre : List (RenderPrimitive W)) (p : RenderPrimitive W)
    (post : List (RenderPrimitive W)) (i : Nat) (m : Machine W)
    (hz : ∀ q ∈ pre, occluded_value state x y z m.world q = 0)
    (hp : occluded_value state x y z m.world p ≠ 0) :
    occluded_loop state x y z ((pre ++ p :: post).map some) i 0 m =
      some (occluded_value state x y z m.world p, { m with log := (m.log ++
        hook_trace (fun p => p.iface.occluded.isSome) Event.occluded (pre ++ [p]) i) }) := by
  induction pre generalizing i m with
  | nil =>
    cases hocc : p.iface.occluded with
    | none => simp [occluded_value, hocc] at hp
    | some hook =>
      have hv : hook p.primitive state x y z m.world ≠ 0 := by
        simpa [occluded_value, hocc] using hp
      simp [occluded_loop, hook_trace, occluded_value, hocc, lor_zero_left, hv]
  | cons q qs ih =>
    have hq := hz q (List.mem_cons_self _ _)
    have hqs : ∀ r ∈ qs, occluded_value state x y z m.world r = 0 :=
      fun r hr => hz r (List.mem_cons_of_mem _ hr)
    cases hocc : q.iface.occluded with
    | none =>
      simp only [List.cons_append, List.map_cons, occluded_loop, hook_trace, hocc, ne_eq,
        not_true_eq_false, if_false, Option.isSome_none, Bool.false_eq_true, List.nil_append,
        List.append_eq]
      exact ih (i + 1) m hqs hp
    | some hook =>
      have hv : hook q.primitive state x y z m.world = 0 := by
        simpa [occluded_value, hocc] using hq
      simp only [List.cons_append, List.map_cons, occluded_loop, hook_trace, hocc, hv,
        lor_zero_left, ne_eq, not_true_eq_false, if_false, Option.isSome_some, if_true,
        List.append_eq]
      rw [ih (i + 1) { m with log := m.log ++ [Event.occluded i] } hqs hp]
      simp [List.append_assoc]

/-- Either every value is `0`, or the list splits at the first non-zero one. -/
theorem split_first_nonzero {α : Type} (f : α → Int) (l : List α) :
    (∀ q ∈ l, f q = 0) ∨
      ∃ pre p post, l = pre ++ p :: post ∧ (∀ q ∈ pre, f q = 0) ∧ f p ≠ 0 := by
  induction l with
  | nil => left; simp
  | cons a t ih =>
    by_cases ha : f a = 0
    · rcases ih with h | ⟨pre, p, post, hl, hpre, hp⟩
      · left
        intro q hq
        rcases List.mem_cons.mp hq with rfl | hq
        · exact ha
        · exact h q hq
      · right
        refine ⟨a :: pre, p, post, by simp [hl], ?_, hp⟩
        intro q hq
        rcases List.mem_cons.mp hq with rfl | hq
        · exact ha
        · exact hpre q hq
    · right
      exact ⟨[], a, t, rfl, by simp, ha⟩

theorem occluded_at_eq {W : Type} (self : RenderMode W) (prims : List (RenderPrimitive W))
    (h : self.primitives = prims.map some) (x y z : Int) (w : W) (j : Nat) :
    occluded_at self x y z w j = (prims[j]?.map (occluded_value self.state x y z w)).getD 0 := by
  unfold occluded_at
  rw [h, List.getElem?_map]
  cases prims[j]? with
  | none => rfl
  | some p => simp only [Option.map_some', Option.getD_some, occluded_value]

theorem defines_occluded_eq {W : Type} (self : RenderMode W) (prims : List (RenderPrimitive W))
    (h : self.primitives = prims.map some) (j : Nat) :
    defines_occluded self j = (prims[j]?.map (fun p => p.iface.occluded.isSome)).getD false := by
  unfold defines_occluded
  rw [h, List.getElem?_map]
  cases prims[j]? with
  | none => rfl
  | some p => simp only [Option.map_some', Option.getD_some]

/-- The trace of a pass over the first `n` instances, by slot numbers. -/
theorem hook_trace_take {W : Type} (defines : RenderPrimitive W → Bool) (ev : Nat → Event)
    (prims : List (RenderPrimitive W)) (n : Nat) (hn : n ≤ prims.length) :
    hook_trace defines ev (prims.take n) 0 =
      ((List.range n).filter (fun j => (prims[j]?.map defines).getD false)).map ev := by
  rw [hook_trace_eq_range, List.length_take, Nat.min_eq_left hn, List.range_eq_range']
  congr 1
  apply List.filter_congr
  intro j hj
  rw [List.mem_range'_1] at hj
  simp only [Nat.sub_zero, List.getElem?_take]
  rw [if_pos (by omega)]

/-- A list splits around each of its positions. -/
theorem split_at_index {α : Type} (l : List α) (k : Nat) (hk : k < l.length) :
    l = l.take k ++ l[k] :: l.drop (k + 1) ∧ l.take k ++ [l[k]] = l.take (k + 1) := by
  constructor
  · rw [← List.drop_eq_getElem_cons hk, List.take_append_drop]
  · rw [List.take_succ, List.getElem?_eq_getElem hk]
    rfl

/-- C1.  For a fully built mode, `render_mode_occluded` returns a non-zero
value exactly when some instance of the list defines an `occluded` hook that
returns a non-zero value at the coordinate; in particular it returns `0` for
the empty mode and for a mode none of whose instances defines the hook. -/
theorem render_mode_occluded_iff {W : Type} (self : RenderMode W) (x y z : Int)
    (m : Machine W) (hfull : fully_built self) :
    ∃ r m1, render_mode_occluded self x y z m = some (r, m1) ∧
      (r ≠ 0 ↔ ∃ prim hook, some prim ∈ self.primitives ∧
        prim.iface.occluded = some hook ∧ hook prim.primitive self.state x y z m.world ≠ 0) ∧
      (self.primitives = [] → r = 0) ∧
      ((∀ prim, some prim ∈ self.primitives → prim.iface.occluded = none) → r = 0) := by
  obtain ⟨prims, hprims⟩ := (fully_built_iff self).mp hfull
  have key : ∃ r m1, render_mode_occluded self x y z m = some (r, m1) ∧
      (r ≠ 0 ↔ ∃ prim hook, some prim ∈ self.primitives ∧
        prim.iface.occluded = some hook ∧
          hook prim.primitive self.state x y z m.world ≠ 0) := by
    rcases split_first_nonzero (occluded_value self.state x y z m.world) prims with
      hz | ⟨pre, p, post, hl, hpre, hp⟩
    · refine ⟨0, { m with log := (m.log ++
        hook_trace (fun p => p.iface.occluded.isSome) Event.occluded prims 0) }, ?_, ?_⟩
      · unfold render_mode_occluded
        rw [hprims]
        exact occluded_loop_all_zero self.state x y z prims 0 m hz
      · constructor
        · intro h
          exact absurd rfl h
        · rintro ⟨prim, hook, hmem, hhook, hne⟩
          rw [hprims] at hmem
          obtain ⟨q, hq, hqe⟩ := List.mem_map.mp hmem
          have hqp : q = prim := Option.some.inj hqe
          have := hz q hq
          rw [hqp] at this
          simp only [occluded_value, hhook] at this
          exact absurd this hne
    · refine ⟨occluded_value self.state x y z m.world p, { m with log := (m.log ++
        hook_trace (fun p => p.iface.occluded.isSome) Event.occluded (pre ++ [p]) 0) }, ?_, ?_⟩
      · unfold render_mode_occluded
        rw [hprims, hl]
        exact occluded_loop_first self.state x y z pre p post 0 m hpre hp
      · constructor
        · intro _
          cases hocc : p.iface.occluded with
          | none => simp [occluded_value, hocc] at hp
          | some hook =>
            refine ⟨p, hook, ?_, hocc, ?_⟩
            · rw [hprims, hl]
              exact List.mem_map.mpr ⟨p, by simp, rfl⟩
            · simpa [occluded_value, hocc] using hp
        · intro _
          exact hp
  obtain ⟨r, m1, hrun, hiff⟩ := key
  refine ⟨r, m1, hrun, hiff, ?_, ?_⟩
  · intro hnil
    by_contra hr
    obtain ⟨prim, _, hmem, _⟩ := hiff.mp hr
    rw [hnil] at hmem
    exact absurd hmem (List.not_mem_nil _)
  · intro hnone
    by_contra hr
    obtain ⟨prim, hook, hmem, hhook, _⟩ := hiff.mp hr
    rw [hnone prim hmem] at hhook
    exact absurd hhook (by simp)

/-- C1 at the mode `[P1, P2]` and the voxel `(0, 0, -1)`. -/
theorem render_mode_occluded_iff_witness :
    fully_built example_mode ∧
    ∃ r m1, render_mode_occluded example_mode 0 0 (-1) example_machine = some (r, m1) ∧
      (r ≠ 0 ↔ ∃ prim hook, some prim ∈ example_mode.primitives ∧
        prim.iface.occluded = some hook ∧
          hook prim.primitive example_mode.state 0 0 (-1) example_machine.world ≠ 0) ∧
      (example_mode.primitives = [] → r = 0) ∧
      ((∀ prim, some prim ∈ example_mode.primitives → prim.iface.occluded = none) → r = 0) :=
  ⟨rfl, render_mode_occluded_iff example_mode 0 0 (-1) example_machine rfl⟩

/-- C2.  Short-circuit of `render_mode_occluded` on a fully built mode.  If
slot `k` is the first whose hook returns a non-zero value, the events of the
call are the `occluded` events of the slots `0..k` that define the hook, each
once and in increasing order, and nothing else; if no hook returns a non-zero
value, they are the `occluded` events of all the slots that define the hook,
each once and in increasing order. -/
theorem render_mode_occluded_short_circuit {W : Type} (self : RenderMode W) (x y z : Int)
    (m : Machine W) (hfull : fully_built self) :
    (∀ k, k < self.num_primitives → occluded_at self x y z m.world k ≠ 0 →
      (∀ j, j < k → occluded_at self x y z m.world j = 0) →
      render_mode_occluded self x y z m =
        some (occluded_at self x y z m.world k, { m with log := (m.log ++
          ((List.range (k + 1)).filter (defines_occluded self)).map Event.occluded) })) ∧
    ((∀ j, j < self.num_primitives → occluded_at self x y z m.world j = 0) →
      render_mode_occluded self x y z m =
        some (0, { m with log := (m.log ++
          ((List.range self.num_primitives).filter (defines_occluded self)).map
            Event.occluded) })) := by
  obtain ⟨prims, hprims⟩ := (fully_built_iff self).mp hfull
  have hlen : self.num_primitives = prims.length := by
    simp [RenderMode.num_primitives, hprims]
  have hdef : defines_occluded self =
      fun j => (prims[j]?.map (fun p => p.iface.occluded.isSome)).getD false :=
    funext (defines_occluded_eq self prims hprims)
  constructor
  · intro k hk hne hbefore
    rw [hlen] at hk
    obtain ⟨hsplit, htake⟩ := split_at_index prims k hk
    have hvalk : occluded_at self x y z m.world k =
        occluded_value self.state x y z m.world prims[k] := by
      rw [occluded_at_eq self prims hprims, List.getElem?_eq_getElem hk]
      rfl
    have hpre : ∀ q ∈ prims.take k, occluded_value self.state x y z m.world q = 0 := by
      intro q hq
      obtain ⟨j, hj, hqj⟩ := List.getElem_of_mem hq
      have hjk : j < k := by
        rw [List.length_take] at hj
        omega
      have h0 := hbefore j hjk
      rw [occluded_at_eq self prims hprims, List.getElem?_eq_getElem (by omega)] at h0
      rw [← hqj, List.getElem_take]
      simpa using h0
    have hrun := occluded_loop_first self.state x y z (prims.take k) prims[k]
      (prims.drop (k + 1)) 0 m hpre (by rw [← hvalk]; exact hne)
    rw [← hsplit, htake, hook_trace_take _ _ prims (k + 1) (by omega)] at hrun
    unfold render_mode_occluded
    rw [hprims, hrun, hvalk, hdef]
  · intro hall
    have hz : ∀ q ∈ prims, occluded_value self.state x y z m.world q = 0 := by
      intro q hq
      obtain ⟨j, hj, hqj⟩ := List.getElem_of_mem hq
      have h0 := hall j (by rw [hlen]; exact hj)
      rw [occluded_at_eq self prims hprims, List.getElem?_eq_getElem hj] at h0
      rw [← hqj]
      simpa using h0
    have hrun := occluded_loop_all_zero self.state x y z prims 0 m hz
    have htr := hook_trace_take (fun p : RenderPrimitive W => p.iface.occluded.isSome)
      Event.occluded prims prims.length (le_refl _)
    rw [List.take_length] at htr
    rw [htr] at hrun
    unfold render_mode_occluded
    rw [hprims, hrun, hlen, hdef]

/-- C2 at the mode `[P1, P2]` and the voxel `(0, 0, -1)`: `P1` answers false,
`P2` answers true, both hooks are evaluated once, in this order. -/
theorem render_mode_occluded_short_circuit_witness :
    fully_built example_mode ∧
    render_mode_occluded example_mode 0 0 (-1) example_machine =
      some (1, { example_machine with log := [Event.occluded 0, Event.occluded 1] }) :=
  ⟨rfl, by
    have h := (render_mode_occluded_short_circuit example_mode 0 0 (-1) example_machine rfl).1
      1 (by decide) (by decide) (by decide)
    simpa [occluded_at, example_mode, P1, P2, example_machine, defines_occluded,
      List.range_succ] using h⟩

/-! ## `render_mode_hidden` against `render_mode_occluded` -/

/-- The two loops run in lockstep when the `hidden` hooks are put in the place
of the `occluded` hooks: same result, same slots evaluated. -/
theorem hidden_loop_lockstep {W : Type} (state : Ptr) (x y z : Int)
    (prims : List (RenderPrimitive W)) (i : Nat) (acc : Int) (m1 m2 : Machine W)
    (hw : m1.world = m2.world) :
    ∃ (r : Int) (slots : List Nat),
      hidden_loop state x y z (prims.map some) i acc m1 =
        some (r, { m1 with log := m1.log ++ slots.map Event.hidden }) ∧
      occluded_loop state x y z
          ((prims.map RenderPrimitive.hidden_as_occluded).map some) i acc m2 =
        some (r, { m2 with log := m2.log ++ slots.map Event.occluded }) := by
  induction prims generalizing i acc m1 m2 with
  | nil => exact ⟨acc, [], by simp [hidden_loop], by simp [occluded_loop]⟩
  | cons p ps ih =>
    cases hh : p.iface.hidden with
    | none =>
      by_cases hacc : acc = 0
      · obtain ⟨r, slots, h1, h2⟩ := ih (i + 1) acc m1 m2 hw
        refine ⟨r, slots, ?_, ?_⟩
        · simp only [List.map_cons, hidden_loop, hh, hacc, ne_eq, not_true_eq_false, if_false]
          rw [← hacc]
          exact h1
        · simp only [List.map_cons, occluded_loop, RenderPrimitive.hidden_as_occluded,
            hidden_as_occluded, hh, hacc, ne_eq, not_true_eq_false, if_false]
          rw [← hacc]
          exact h2
      · refine ⟨acc, [], ?_, ?_⟩
        · simp [hidden_loop, hh, hacc]
        · simp [occluded_loop, RenderPrimitive.hidden_as_occluded, hidden_as_occluded, hh, hacc]
    | some hook =>
      by_cases hv : Int.lor acc (hook p.primitive state x y z m1.world) = 0
      · obtain ⟨r, slots, h1, h2⟩ := ih (i + 1)
          (Int.lor acc (hook p.primitive state x y z m1.world))
          { m1 with log := m1.log ++ [Event.hidden i] }
          { m2 with log := m2.log ++ [Event.occluded i] } hw
        refine ⟨r, i :: slots, ?_, ?_⟩
        · simp only [List.map_cons, hidden_loop, hh, hv, ne_eq, not_true_eq_false, if_false]
          rw [hv] at h1
          rw [h1]
          simp [List.append_assoc]
        · have hv2 := hv
          rw [hw] at hv2
          simp only [List.map_cons, occluded_loop, RenderPrimitive.hidden_as_occluded,
            hidden_as_occluded, hh, hv2, ne_eq, not_true_eq_false, if_false]
          rw [hv] at h2
          rw [h2]
          simp [List.append_assoc]
      · refine ⟨Int.lor acc (hook p.primitive state x y z m1.world), [i], ?_, ?_⟩
        · simp [hidden_loop, hh, hv]
        · have hv2 := hv
          rw [hw] at hv2
          simp [occluded_loop, RenderPrimitive.hidden_as_occluded, hidden_as_occluded, hh,
            hw, hv2]

/-- On a fully built mode the call of `render_mode_occluded` logs `occluded`
events only. -/
theorem render_mode_occluded_log {W : Type} (self : RenderMode W) (x y z : Int)
    (m : Machine W) (hfull : fully_built self) :
    ∃ (r : Int) (slots : List Nat), render_mode_occluded self x y z m =
      some (r, { m with log := m.log ++ slots.map Event.occluded }) := by
  obtain ⟨prims, hprims⟩ := (fully_built_iff self).mp hfull
  unfold render_mode_occluded
  rw [hprims]
  rcases split_first_nonzero (occluded_value self.state x y z m.world) prims with
    hz | ⟨pre, p, post, hl, hpre, hp⟩
  · rw [occluded_loop_all_zero self.state x y z prims 0 m hz, hook_trace_eq_range]
    exact ⟨_, _, rfl⟩
  · rw [hl, occluded_loop_first self.state x y z pre p post 0 m hpre hp, hook_trace_eq_range]
    exact ⟨_, _, rfl⟩

/-- C3.  On a fully built mode `render_mode_hidden` behaves as
`render_mode_occluded` run on the same mode with each `occluded` hook replaced
by the instance's `hidden` hook: the two calls return the same value and
evaluate the hooks of the same slots in the same order.  The call of
`render_mode_hidden` evaluates `hidden` hooks only, and a call of
`render_mode_occluded` evaluates `occluded` hooks only. -/
theorem render_mode_hidden_as_occluded {W : Type} (self : RenderMode W) (x y z : Int)
    (m : Machine W) (hfull : fully_built self) :
    (∃ (r : Int) (slots : List Nat),
      render_mode_hidden self x y z m =
        some (r, { m with log := m.log ++ slots.map Event.hidden }) ∧
      render_mode_occluded self.hidden_as_occluded x y z m =
        some (r, { m with log := m.log ++ slots.map Event.occluded })) ∧
    (∃ (r : Int) (slots : List Nat), render_mode_occluded self x y z m =
        some (r, { m with log := m.log ++ slots.map Event.occluded })) := by
  obtain ⟨prims, hprims⟩ := (fully_built_iff self).mp hfull
  refine ⟨?_, render_mode_occluded_log self x y z m hfull⟩
  obtain ⟨r, slots, h1, h2⟩ := hidden_loop_lockstep self.state x y z prims 0 0 m m rfl
  refine ⟨r, slots, ?_, ?_⟩
  · unfold render_mode_hidden
    rw [hprims]
    exact h1
  · unfold render_mode_occluded
    have hmap : self.hidden_as_occluded.primitives =
        (prims.map RenderPrimitive.hidden_as_occluded).map some := by
      simp [RenderMode.hidden_as_occluded, hprims, List.map_map, Function.comp_def]
    rw [hmap]
    exact h2

/-- C3 at the mode `[P1, P2]` and the voxel `(-1, 0, 0)`. -/
theorem render_mode_hidden_as_occluded_witness :
    fully_built example_mode ∧
    (∃ (r : Int) (slots : List Nat),
      render_mode_hidden example_mode (-1) 0 0 example_machine =
        some (r, { example_machine with
          log := example_machine.log ++ slots.map Event.hidden }) ∧
      render_mode_occluded example_mode.hidden_as_occluded (-1) 0 0 example_machine =
        some (r, { example_machine with
          log := example_machine.log ++ slots.map Event.occluded })) ∧
    (∃ (r : Int) (slots : List Nat), render_mode_occluded example_mode (-1) 0 0 example_machine =
        some (r, { example_machine with
          log := example_machine.log ++ slots.map Event.occluded })) :=
  ⟨rfl, render_mode_hidden_as_occluded example_mode (-1) 0 0 example_machine rfl⟩

/-! ## The traversal of `render_mode_draw` -/

theorem draw_loop_fold {W : Type} (state img mask mask_light : Ptr)
    (prims : List (RenderPrimitive W)) (i : Nat) (m : Machine W) :
    draw_loop state img mask mask_light (prims.map some) i m =
      some { heap := m.heap,
             log := m.log ++ hook_trace (fun p => p.iface.draw.isSome) Event.draw prims i,
             world := prims.foldl (draw_step state img mask mask_light) m.world } := by
  induction prims generalizing i m with
  | nil => simp [draw_loop, hook_trace]
  | cons p ps ih =>
    cases hd : p.iface.draw with
    | none =>
      simp only [List.map_cons, draw_loop, hook_trace, hd, List.foldl_cons, draw_step,
        Option.isSome_none, Bool.false_eq_true, if_false, List.nil_append]
      exact ih (i + 1) m
    | some hook =>
      simp only [List.map_cons, draw_loop, hook_trace, hd, List.foldl_cons, draw_step,
        Option.isSome_some, if_true]
      rw [ih (i + 1)]
      simp [List.append_assoc]

theorem defines_draw_eq {W : Type} (self : RenderMode W) (prims : List (RenderPrimitive W))
    (h : self.primitives = prims.map some) (j : Nat) :
    defines_draw self j = (prims[j]?.map (fun p => p.iface.draw.isSome)).getD false := by
  unfold defines_draw
  rw [h, List.getElem?_map]
  cases prims[j]? with
  | none => rfl
  | some p => simp only [Option.map_some', Option.getD_some]

theorem reduceOption_map_some {α : Type} (l : List α) : (l.map some).reduceOption = l := by
  induction l with
  | nil => rfl
  | cons a t ih => simp [List.reduceOption_cons_of_some, ih]

/-- C4.  On a fully built mode one call of `render_mode_draw` invokes the
`draw` hook of every slot that defines one exactly once, in increasing slot
order, and nothing else (no `occluded` or `hidden` hook, no allocation); the
world it leaves, the output targets included, is the left fold of the defined
`draw` hooks over the initial world in list order. -/
theorem render_mode_draw_fold {W : Type} (self : RenderMode W) (img mask mask_light : Ptr)
    (m : Machine W) (hfull : fully_built self) :
    render_mode_draw self img mask mask_light m =
      some { heap := m.heap,
             log := m.log ++
               ((List.range self.num_primitives).filter (defines_draw self)).map Event.draw,
             world := self.primitives.reduceOption.foldl
               (draw_step self.state img mask mask_light) m.world } := by
  obtain ⟨prims, hprims⟩ := (fully_built_iff self).mp hfull
  have hdef : defines_draw self =
      fun j => (prims[j]?.map (fun p => p.iface.draw.isSome)).getD false :=
    funext (defines_draw_eq self prims hprims)
  have htr := hook_trace_take (fun p : RenderPrimitive W => p.iface.draw.isSome)
    Event.draw prims prims.length (le_refl _)
  rw [List.take_length] at htr
  unfold render_mode_draw
  rw [hprims, draw_loop_fold, htr, reduceOption_map_some, hdef]
  simp [RenderMode.num_primitives, hprims]

/-- C4 at the mode `[P1, P2]`: `P1` paints `10`, then `P2` paints `20` over
it; the pixel ends as `20`. -/
theorem render_mode_draw_fold_witness :
    fully_built example_mode ∧
    render_mode_draw example_mode 7 8 9 example_machine =
      some { heap := example_machine.heap,
             log := [Event.draw 0, Event.draw 1],
             world := 20 } :=
  ⟨rfl, by
    have h := render_mode_draw_fold example_mode 7 8 9 example_machine rfl
    simpa [example_mode, P1, P2, example_machine, defines_draw, draw_step,
      RenderMode.num_primitives, List.range_succ, List.reduceOption] using h⟩

/-! ## Teardown -/

/-- The loop of `render_mode_destroy` in closed form. -/
theorem destroy_loop_eq {W : Type} (state : Ptr) (slots : List (Option (RenderPrimitive W)))
    (i : Nat) (m : Machine W) :
    destroy_loop state slots i m =
      { heap := { m.heap with live := m.heap.live.diff (slots.reduceOption.flatMap blocks) },
        log := m.log ++ destroy_events slots i,
        world := slots.reduceOption.foldl (finish_step state) m.world } := by
  induction slots generalizing i m with
  | nil => simp [destroy_loop, destroy_events]
  | cons slot rest ih =>
    cases slot with
    | none =>
      simp only [destroy_loop, destroy_events, List.reduceOption_cons_of_none]
      exact ih (i + 1) m
    | some p =>
      simp only [destroy_loop, destroy_events, List.reduceOption_cons_of_some,
        List.flatMap_cons, List.foldl_cons]
      rw [ih]
      cases hf : p.iface.finish <;> by_cases h1 : p.primitive = 0 <;>
        by_cases h2 : p.addr = 0 <;>
        simp [free, blocks, finish_step, hf, h1, h2, List.diff_cons, List.diff_append,
          List.append_assoc]

/-! ## Construction of one instance -/

/-- `strcmp` returns `0` exactly on equal C strings. -/
theorem strcmp_eq_zero (a b : String) : strcmp a b = 0 ↔ c_str a = c_str b := by
  unfold strcmp
  split_ifs <;> simp_all

/-- A string without a NUL is its own C string. -/
theorem c_str_eq_self (s : String) (h : Char.ofNat 0 ∉ s.toList) : c_str s = s := by
  unfold c_str
  have hall : s.toList.takeWhile (fun c => c ≠ Char.ofNat 0) = s.toList := by
    rw [List.takeWhile_eq_self_iff]
    intro c hc
    simp only [ne_eq, decide_not, Bool.not_eq_eq_eq_not, Bool.not_true, decide_eq_false_iff_not]
    intro h0
    exact h (h0 ▸ hc)
  rw [hall]
  rfl

theorem resolve_eq_some {W : Type} (render_primitives : List (RenderPrimitiveInterface W))
    (prim : PyPrimitive) (iface : RenderPrimitiveInterface W)
    (h : resolve render_primitives prim = some iface) :
    ∃ name, prim.name = some name ∧
      render_primitives.find? (fun r => strcmp r.name name == 0) = some iface := by
  unfold resolve at h
  cases hn : prim.name with
  | none => simp [hn] at h
  | some name =>
    simp only [hn] at h
    exact ⟨name, rfl, h⟩

/-- An accepted descriptor yields an instance bound to its kind; the record
and the data block are the next fresh addresses. -/
theorem render_primitive_create_ok {W : Type}
    (render_primitives : List (RenderPrimitiveInterface W)) (prim : PyPrimitive)
    (state : Ptr) (m : Machine W) (iface : RenderPrimitiveInterface W)
    (hres : resolve render_primitives prim = some iface)
    (hstart : ∀ start, iface.start = some start →
      ∀ (p : Ptr) (w : W), (start p state prim w).1 = 0) :
    ∃ ret m1, render_primitive_create render_primitives prim state m = (.ok ret, m1) ∧
      ret.iface = iface ∧ ret.addr ≠ 0 ∧
      m1.heap.live = blocks ret ++ m.heap.live ∧
      m1.log = m.log ++ create_events ret ∧
      (blocks ret).reverse = List.range' (m.heap.brk + 1) (m1.heap.brk - m.heap.brk) ∧
      m.heap.brk ≤ m1.heap.brk := by
  obtain ⟨name, hname, hfind⟩ := resolve_eq_some render_primitives prim iface hres
  by_cases hds : iface.data_size > 0
  · cases hst : iface.start with
    | none =>
      simp [render_primitive_create, hname, hfind, calloc, hds, hst, blocks, create_events,
        List.range'_succ]
      refine ⟨_, _, ⟨rfl, rfl⟩, ?_⟩
      simp [hst, List.range'_succ]
      have hsub : m.heap.brk + 1 + 1 - m.heap.brk = 2 := by omega
      rw [hsub]
      exact ⟨rfl, by omega⟩
    | some start =>
      have h0 := hstart start hst (m.heap.brk + 1 + 1) m.world
      simp [render_primitive_create, hname, hfind, calloc, hds, hst, h0, blocks, create_events,
        List.range'_succ]
      refine ⟨_, _, ⟨rfl, rfl⟩, ?_⟩
      simp [hst, List.range'_succ]
      have hsub : m.heap.brk + 1 + 1 - m.heap.brk = 2 := by omega
      rw [hsub]
      exact ⟨rfl, by omega⟩
  · cases hst : iface.start with
    | none =>
      simp [render_primitive_create, hname, hfind, calloc, hds, hst, blocks, create_events,
        List.range'_succ]
      refine ⟨_, _, ⟨rfl, rfl⟩, ?_⟩
      simp [hst, List.range'_succ]
    | some start =>
      have h0 := hstart start hst 0 m.world
      simp [render_primitive_create, hname, hfind, calloc, hds, hst, h0, blocks, create_events,
        List.range'_succ]
      refine ⟨_, _, ⟨rfl, rfl⟩, ?_⟩
      simp [hst, List.range'_succ]

/-- A failed construction leaves no block behind: whatever it allocated it
has freed, in reverse order, and it has run no `finish` hook. -/
theorem render_primitive_create_error {W : Type}
    (render_primitives : List (RenderPrimitiveInterface W)) (prim : PyPrimitive)
    (state : Ptr) (m : Machine W) (e : CreateError) (m1 : Machine W)
    (h : render_primitive_create render_primitives prim state m = (.error e, m1)) :
    m1.heap.live = m.heap.live ∧
    ∃ evs, m1.log = m.log ++ evs ∧ frees evs = (callocs evs).reverse ∧
      callocs evs = List.range' (m.heap.brk + 1) (m1.heap.brk - m.heap.brk) ∧
      m.heap.brk ≤ m1.heap.brk ∧ finishes evs = [] := by
  cases hname : prim.name with
  | none =>
    simp only [render_primitive_create, hname, Prod.mk.injEq] at h
    obtain ⟨_, rfl⟩ := h
    exact ⟨rfl, [], by simp, rfl, by simp [callocs], le_refl _, rfl⟩
  | some name =>
    cases hfind : render_primitives.find? (fun r => strcmp r.name name == 0) with
    | none =>
      simp only [render_primitive_create, hname, hfind, Prod.mk.injEq] at h
      obtain ⟨_, rfl⟩ := h
      exact ⟨rfl, [], by simp, rfl, by simp [callocs], le_refl _, rfl⟩
    | some iface =>
      by_cases hds : iface.data_size > 0
      · cases hst : iface.start with
        | none => simp [render_primitive_create, hname, hfind, calloc, hds, hst] at h
        | some start =>
          by_cases h0 : (start (m.heap.brk + 1 + 1) state prim m.world).1 = 0
          · simp [render_primitive_create, hname, hfind, calloc, hds, hst, h0] at h
          · simp [render_primitive_create, hname, hfind, calloc, hds, hst, h0, free] at h
            obtain ⟨_, rfl⟩ := h
            refine ⟨by simp, [Event.calloc (m.heap.brk + 1), Event.calloc (m.heap.brk + 1 + 1),
              Event.start iface.name (m.heap.brk + 1), Event.free (m.heap.brk + 1 + 1),
              Event.free (m.heap.brk + 1)], by simp, ?_, ?_, by simp; omega, ?_⟩
            · simp [frees, callocs]
            · have hsub : m.heap.brk + 1 + 1 - m.heap.brk = 2 := by omega
              simp [callocs, hsub, List.range'_succ]
            · simp [finishes]
      · cases hst : iface.start with
        | none => simp [render_primitive_create, hname, hfind, calloc, hds, hst] at h
        | some start =>
          by_cases h0 : (start 0 state prim m.world).1 = 0
          · simp [render_primitive_create, hname, hfind, calloc, hds, hst, h0] at h
          · simp [render_primitive_create, hname, hfind, calloc, hds, hst, h0, free] at h
            obtain ⟨_, rfl⟩ := h
            refine ⟨by simp, [Event.calloc (m.heap.brk + 1),
              Event.start iface.name (m.heap.brk + 1), Event.free (m.heap.brk + 1)],
              by simp, ?_, ?_, by simp, ?_⟩
            · simp [frees, callocs]
            · simp [callocs, List.range'_succ]
            · simp [finishes]

/-! ## Construction of a mode -/

theorem set_slot {α : Type} (done : List (Option α)) (n : Nat) (x : Option α) :
    (done ++ List.replicate (n + 1) none).set done.length x =
      (done ++ [x]) ++ List.replicate n none := by
  rw [List.set_append]
  simp [List.replicate_succ]

/-- Over a run of accepted descriptors the loop of `render_mode_create` fills
one slot after the other, in order, with instances bound to the kinds the
descriptors name; each instance takes the next fresh addresses. -/
theorem create_loop_accepted {W : Type} (render_primitives : List (RenderPrimitiveInterface W))
    (state : Ptr) (pre : List PyPrimitive)
    (hacc : ∀ d ∈ pre, accepts render_primitives state d) (m : Machine W) :
    ∃ (built : List (RenderPrimitive W)) (m1 : Machine W),
      (∀ (rest : List PyPrimitive) (a s pa : Ptr) (done : List (Option (RenderPrimitive W)))
          (k : Nat),
        create_loop render_primitives state (pre ++ rest) done.length
            ⟨a, s, pa, done ++ List.replicate (pre.length + k) none⟩ m =
          create_loop render_primitives state rest (done.length + pre.length)
            ⟨a, s, pa, done ++ built.map some ++ List.replicate k none⟩ m1) ∧
      List.Forall₂ (fun d p => resolve render_primitives d = some p.iface) pre built ∧
      (∀ p ∈ built, p.addr ≠ 0) ∧
      m1.heap.live = built.reverse.flatMap blocks ++ m.heap.live ∧
      m1.log = m.log ++ built.flatMap create_events ∧
      built.flatMap (fun p => (blocks p).reverse) =
        List.range' (m.heap.brk + 1) (m1.heap.brk - m.heap.brk) ∧
      m.heap.brk ≤ m1.heap.brk := by
  induction pre generalizing m with
  | nil =>
    refine ⟨[], m, ?_, List.Forall₂.nil, by simp, by simp, by simp, by simp, le_refl _⟩
    intro rest a s pa done k
    simp
  | cons d ds ih =>
    obtain ⟨iface, hres, hstart⟩ := hacc d (List.mem_cons_self _ _)
    obtain ⟨ret, m0, hrpc, hiface, haddr, hlive0, hlog0, hrange0, hbrk0⟩ :=
      render_primitive_create_ok render_primitives d state m iface hres hstart
    obtain ⟨built, m1, hloop, hforall, hnz, hlive, hlog, hrange, hbrk⟩ :=
      ih (fun d1 hd1 => hacc d1 (List.mem_cons_of_mem _ hd1)) m0
    refine ⟨ret :: built, m1, ?_, ?_, ?_, ?_, ?_, ?_, ?_⟩
    · intro rest a s pa done k
      have hset : (done ++ List.replicate (ds.length + 1 + k) none).set done.length (some ret) =
          (done ++ [some ret]) ++ List.replicate (ds.length + k) none := by
        have hk : ds.length + 1 + k = (ds.length + k) + 1 := by omega
        rw [hk]
        exact set_slot done (ds.length + k) (some ret)
      have hnext := hloop rest a s pa (done ++ [some ret]) k
      simp only [List.length_append, List.length_singleton] at hnext
      simp only [List.cons_append, create_loop, hrpc, List.length_cons, hset, List.append_eq]
      rw [hnext]
      have hidx : done.length + 1 + ds.length = done.length + (ds.length + 1) := by omega
      rw [hidx]
      simp [List.append_assoc]
    · exact List.Forall₂.cons (by rw [hiface]; exact hres) hforall
    · intro p hp
      rcases List.mem_cons.mp hp with rfl | hp
      · exact haddr
      · exact hnz p hp
    · rw [hlive, hlive0]
      simp [List.flatMap_append, List.append_assoc]
    · rw [hlog, hlog0]
      simp [List.flatMap_cons, List.append_assoc]
    · rw [List.flatMap_cons, hrange, hrange0]
      have h1 : m0.heap.brk + 1 = m.heap.brk + 1 + 1 * (m0.heap.brk - m.heap.brk) := by omega
      rw [h1, List.range'_append]
      congr 1
      omega
    · omega

theorem example_descriptors_accepted :
    ∀ d ∈ example_descriptors, accepts example_primitives 100 d := by
  intro d hd
  simp only [example_descriptors, List.mem_cons, List.mem_singleton, List.not_mem_nil,
    or_false] at hd
  rcases hd with rfl | rfl
  · exact ⟨P1, rfl, by simp [P1]⟩
  · refine ⟨P2, rfl, ?_⟩
    intro start hstart p w
    simp only [P2, Option.some.injEq] at hstart
    rw [← hstart]

/-- C5.  For a descriptor sequence of length `N` every descriptor of which
is accepted (it carries a name, the name resolves in the table, and the
`start` hook of the kind, if any, reports success), `render_mode_create`
returns a mode with exactly `N` slots, none of them empty, and for every
`i < N` the instance in slot `i` is bound to the kind that descriptor `i`
names: the entry `resolve` finds, whose name `strcmp` finds equal to the
name of the descriptor, and is that very name when neither holds a NUL. -/
theorem render_mode_create_ok {W : Type}
    (render_primitives : List (RenderPrimitiveInterface W)) (mode : List PyPrimitive)
    (state : Ptr) (m : Machine W)
    (hwf : ∀ d ∈ mode, accepts render_primitives state d) :
    ∃ ret m1, render_mode_create render_primitives (some mode) state m = (.ok ret, m1) ∧
      ret.num_primitives = mode.length ∧ fully_built ret ∧
      ∀ i (hi : i < mode.length), ∃ prim name,
        ret.primitives[i]? = some (some prim) ∧
        resolve render_primitives mode[i] = some prim.iface ∧
        mode[i].name = some name ∧ strcmp prim.iface.name name = 0 ∧
        (c_str prim.iface.name = prim.iface.name → c_str name = name →
          prim.iface.name = name) := by
  obtain ⟨built, m1, hloop, hforall, -, -, -, -, -⟩ :=
    create_loop_accepted render_primitives state mode hwf (calloc (calloc m).2).2
  have hrun := hloop [] (calloc m).1 state (calloc (calloc m).2).1 [] 0
  simp only [List.append_nil, List.length_nil, Nat.add_zero, List.nil_append,
    List.replicate_zero, Nat.zero_add, create_loop] at hrun
  have hlen : mode.length = built.length := hforall.length_eq
  refine ⟨⟨(calloc m).1, state, (calloc (calloc m).2).1, built.map some⟩, m1, ?_, ?_, ?_, ?_⟩
  · simp only [render_mode_create]
    exact hrun
  · simp [RenderMode.num_primitives, hlen]
  · exact (fully_built_iff _).mpr ⟨built, rfl⟩
  · intro i hi
    have hib : i < built.length := by omega
    have hrel := hforall.get hi hib
    simp only [List.get_eq_getElem] at hrel
    obtain ⟨name, hname, hfind⟩ := resolve_eq_some render_primitives mode[i] _ hrel
    have hcmp : strcmp built[i].iface.name name = 0 := by
      have := List.find?_some hfind
      simpa using this
    refine ⟨built[i], name, ?_, hrel, hname, hcmp, ?_⟩
    · simp [List.getElem?_eq_getElem hib]
    · intro h1 h2
      rw [← h1, ← h2]
      exact (strcmp_eq_zero _ _).mp hcmp

/-- C5 at the descriptor sequence `[P1, P2]`. -/
theorem render_mode_create_ok_witness :
    (∀ d ∈ example_descriptors, accepts example_primitives 100 d) ∧
    ∃ ret m1, render_mode_create example_primitives (some example_descriptors) 100
        example_machine = (.ok ret, m1) ∧
      ret.num_primitives = example_descriptors.length ∧ fully_built ret ∧
      ∀ i (hi : i < example_descriptors.length), ∃ prim name,
        ret.primitives[i]? = some (some prim) ∧
        resolve example_primitives example_descriptors[i] = some prim.iface ∧
        example_descriptors[i].name = some name ∧ strcmp prim.iface.name name = 0 ∧
        (c_str prim.iface.name = prim.iface.name → c_str name = name →
          prim.iface.name = name) :=
  ⟨example_descriptors_accepted,
    render_mode_create_ok example_primitives example_descriptors 100 example_machine
      example_descriptors_accepted⟩

/-! ## Bookkeeping on logs -/

theorem callocs_append (a b : List Event) : callocs (a ++ b) = callocs a ++ callocs b := by
  simp [callocs, List.filterMap_append]

theorem frees_append (a b : List Event) : frees (a ++ b) = frees a ++ frees b := by
  simp [frees, List.filterMap_append]

theorem finishes_append (a b : List Event) : finishes (a ++ b) = finishes a ++ finishes b := by
  simp [finishes, List.filterMap_append]

theorem starts_append (a b : List Event) : starts (a ++ b) = starts a ++ starts b := by
  simp [starts, List.filterMap_append]

theorem callocs_create_events {W : Type} (p : RenderPrimitive W) (h : p.addr ≠ 0) :
    callocs (create_events p) = (blocks p).reverse := by
  by_cases h1 : p.primitive = 0 <;> cases hs : p.iface.start <;>
    simp [callocs, create_events, blocks, h, h1, hs]

theorem frees_create_events {W : Type} (p : RenderPrimitive W) :
    frees (create_events p) = [] := by
  by_cases h1 : p.primitive = 0 <;> cases hs : p.iface.start <;>
    simp [frees, create_events, h1, hs]

theorem finishes_create_events {W : Type} (p : RenderPrimitive W) :
    finishes (create_events p) = [] := by
  by_cases h1 : p.primitive = 0 <;> cases hs : p.iface.start <;>
    simp [finishes, create_events, h1, hs]

theorem callocs_flatMap_create_events {W : Type} (built : List (RenderPrimitive W))
    (h : ∀ p ∈ built, p.addr ≠ 0) :
    callocs (built.flatMap create_events) = built.flatMap (fun p => (blocks p).reverse) := by
  induction built with
  | nil => rfl
  | cons p ps ih =>
    rw [List.flatMap_cons, List.flatMap_cons, callocs_append,
      callocs_create_events p (h p (List.mem_cons_self _ _)),
      ih (fun q hq => h q (List.mem_cons_of_mem _ hq))]

theorem frees_flatMap_create_events {W : Type} (built : List (RenderPrimitive W)) :
    frees (built.flatMap create_events) = [] := by
  induction built with
  | nil => rfl
  | cons p ps ih => rw [List.flatMap_cons, frees_append, frees_create_events, ih]; rfl

theorem finishes_flatMap_create_events {W : Type} (built : List (RenderPrimitive W)) :
    finishes (built.flatMap create_events) = [] := by
  induction built with
  | nil => rfl
  | cons p ps ih => rw [List.flatMap_cons, finishes_append, finishes_create_events, ih]; rfl

theorem destroy_events_replicate_none {W : Type} (k i : Nat) :
    destroy_events (List.replicate k (none : Option (RenderPrimitive W))) i = [] := by
  induction k generalizing i with
  | zero => rfl
  | succ n ih => simp only [List.replicate_succ, destroy_events]; exact ih (i + 1)

theorem callocs_destroy_events {W : Type} (slots : List (Option (RenderPrimitive W))) (i : Nat) :
    callocs (destroy_events slots i) = [] := by
  induction slots generalizing i with
  | nil => rfl
  | cons slot rest ih =>
    cases slot with
    | none => simp only [destroy_events]; exact ih (i + 1)
    | some p =>
      simp only [destroy_events, callocs_append, ih (i + 1)]
      cases hf : p.iface.finish <;> by_cases h1 : p.primitive = 0 <;>
        by_cases h2 : p.addr = 0 <;> simp [callocs, hf, h1, h2]

theorem frees_destroy_events {W : Type} (slots : List (Option (RenderPrimitive W))) (i : Nat) :
    frees (destroy_events slots i) = slots.reduceOption.flatMap blocks := by
  induction slots generalizing i with
  | nil => rfl
  | cons slot rest ih =>
    cases slot with
    | none =>
      simp only [destroy_events, List.reduceOption_cons_of_none]
      exact ih (i + 1)
    | some p =>
      simp only [destroy_events, frees_append, ih (i + 1), List.reduceOption_cons_of_some,
        List.flatMap_cons]
      cases hf : p.iface.finish <;> by_cases h1 : p.primitive = 0 <;>
        by_cases h2 : p.addr = 0 <;> simp [frees, blocks, hf, h1, h2]

theorem finishes_map_finish (l : List Nat) :
    finishes (l.map (fun j => Event.finish j 0)) = l := by
  induction l with
  | nil => rfl
  | cons a t ih =>
    simp only [List.map_cons]
    rw [show (Event.finish a 0 :: t.map (fun j => Event.finish j 0)) =
      [Event.finish a 0] ++ t.map (fun j => Event.finish j 0) from rfl, finishes_append, ih]
    rfl

/-- The slots whose `finish` hook the teardown of a partially built mode
invokes: those of the instances that define the hook, in increasing order. -/
theorem finishes_destroy_events {W : Type} (prims : List (RenderPrimitive W)) (k i : Nat) :
    finishes (destroy_events (prims.map some ++ List.replicate k none) i) =
      (List.range' i prims.length).filter
        (fun j => (prims[j - i]?.map (fun p => p.iface.finish.isSome)).getD false) := by
  have h : finishes (destroy_events (prims.map some ++ List.replicate k none) i) =
      finishes (hook_trace (fun p => p.iface.finish.isSome) (fun j => Event.finish j 0)
        prims i) := by
    induction prims generalizing i with
    | nil =>
      simp only [List.map_nil, List.nil_append, destroy_events_replicate_none, hook_trace]
    | cons p ps ih =>
      simp only [List.map_cons, List.cons_append, destroy_events, hook_trace, finishes_append,
        List.append_eq]
      rw [ih (i + 1)]
      cases hf : p.iface.finish <;> by_cases h1 : p.primitive = 0 <;>
        by_cases h2 : p.addr = 0 <;> simp [finishes, hf, h1, h2]
  rw [h, hook_trace_eq_range, finishes_map_finish]

theorem reduceOption_built {α : Type} (l : List α) (k : Nat) :
    (l.map some ++ List.replicate k none).reduceOption = l := by
  rw [List.reduceOption_append, reduceOption_map_some]
  have : (List.replicate k (none : Option α)).reduceOption = [] := by
    induction k with
    | zero => rfl
    | succ n ih => simp [List.replicate_succ, List.reduceOption_cons_of_none, ih]
  rw [this, List.append_nil]

theorem append_diff_self (a b : List Nat) : (a ++ b).diff a = b := by
  induction a with
  | nil => simp
  | cons x t ih => simp [List.diff_cons, ih]

theorem append_diff_perm (a a1 b : List Nat) (h : a1.Perm a) : (a ++ b).diff a1 = b := by
  rw [List.Perm.diff_left _ h, append_diff_self]

theorem length_le_flatMap_blocks {W : Type} (built : List (RenderPrimitive W))
    (h : ∀ p ∈ built, p.addr ≠ 0) :
    built.length ≤ (built.flatMap (fun p => (blocks p).reverse)).length := by
  induction built with
  | nil => simp
  | cons p ps ih =>
    have hp := h p (List.mem_cons_self _ _)
    have ih1 := ih (fun q hq => h q (List.mem_cons_of_mem _ hq))
    simp only [List.flatMap_cons, List.length_append, List.length_cons, List.length_reverse]
    have : 1 ≤ (blocks p).length := by
      by_cases h1 : p.primitive = 0 <;> simp [blocks, hp, h1]
    omega

theorem kind_defines_finish_eq {W : Type} (render_primitives : List (RenderPrimitiveInterface W))
    (pre : List PyPrimitive) (rest : List PyPrimitive) (built : List (RenderPrimitive W))
    (hforall : List.Forall₂ (fun d p => resolve render_primitives d = some p.iface) pre built)
    (j : Nat) (hj : j < pre.length) :
    kind_defines_finish render_primitives (pre ++ rest) j =
      (built[j]?.map (fun p => p.iface.finish.isSome)).getD false := by
  have hlen : pre.length = built.length := hforall.length_eq
  have hjb : j < built.length := by omega
  have hrel := hforall.get hj hjb
  simp only [List.get_eq_getElem] at hrel
  unfold kind_defines_finish
  rw [List.getElem?_append_left hj, List.getElem?_eq_getElem hj, List.getElem?_eq_getElem hjb]
  simp [hrel]

/-- What a returned instance tells about the call that built it: it is bound
to the kind the descriptor resolves to, and its record and data block are the
next fresh addresses. -/
theorem render_primitive_create_built {W : Type}
    (render_primitives : List (RenderPrimitiveInterface W)) (prim : PyPrimitive)
    (state : Ptr) (m : Machine W) (ret : RenderPrimitive W) (m1 : Machine W)
    (h : render_primitive_create render_primitives prim state m = (.ok ret, m1)) :
    resolve render_primitives prim = some ret.iface ∧ ret.addr ≠ 0 ∧
      m1.heap.live = blocks ret ++ m.heap.live ∧
      m1.log = m.log ++ create_events ret ∧
      (blocks ret).reverse = List.range' (m.heap.brk + 1) (m1.heap.brk - m.heap.brk) ∧
      m.heap.brk ≤ m1.heap.brk := by
  cases hname : prim.name with
  | none => simp [render_primitive_create, hname] at h
  | some name =>
    cases hfind : render_primitives.find? (fun r => strcmp r.name name == 0) with
    | none => simp [render_primitive_create, hname, hfind] at h
    | some iface =>
      have hres : resolve render_primitives prim = some iface := by
        simp only [resolve, hname, hfind]
      by_cases hds : iface.data_size > 0
      · have hsub : m.heap.brk + 1 + 1 - m.heap.brk = 2 := by omega
        cases hst : iface.start with
        | none =>
          simp [render_primitive_create, hname, hfind, calloc, hds, hst] at h
          obtain ⟨rfl, rfl⟩ := h
          simp [hres, blocks, create_events, hst, hsub, List.range'_succ]
          omega
        | some start =>
          by_cases h0 : (start (m.heap.brk + 1 + 1) state prim m.world).1 = 0
          · simp [render_primitive_create, hname, hfind, calloc, hds, hst, h0] at h
            obtain ⟨rfl, rfl⟩ := h
            simp [hres, blocks, create_events, hst, hsub, List.range'_succ]
            omega
          · simp [render_primitive_create, hname, hfind, calloc, hds, hst, h0] at h
      · cases hst : iface.start with
        | none =>
          simp [render_primitive_create, hname, hfind, calloc, hds, hst] at h
          obtain ⟨rfl, rfl⟩ := h
          simp [hres, blocks, create_events, hst, List.range'_succ]
        | some start =>
          by_cases h0 : (start 0 state prim m.world).1 = 0
          · simp [render_primitive_create, hname, hfind, calloc, hds, hst, h0] at h
            obtain ⟨rfl, rfl⟩ := h
            simp [hres, blocks, create_events, hst, List.range'_succ]
          · simp [render_primitive_create, hname, hfind, calloc, hds, hst, h0] at h

/-- Over descriptors that construct successfully one after the other, the
loop of `render_mode_create` fills one slot after the other, in order, with
the instances built; each instance is bound to the kind its descriptor
resolves to and takes the next fresh addresses. -/
theorem create_loop_constructed {W : Type}
    (render_primitives : List (RenderPrimitiveInterface W)) (state : Ptr)
    (pre : List PyPrimitive) (m : Machine W) (built : List (RenderPrimitive W))
    (m1 : Machine W)
    (hrun : construct_all render_primitives state pre m = some (built, m1)) :
    (∀ (rest : List PyPrimitive) (a s pa : Ptr) (done : List (Option (RenderPrimitive W)))
        (k : Nat),
      create_loop render_primitives state (pre ++ rest) done.length
          ⟨a, s, pa, done ++ List.replicate (pre.length + k) none⟩ m =
        create_loop render_primitives state rest (done.length + pre.length)
          ⟨a, s, pa, done ++ built.map some ++ List.replicate k none⟩ m1) ∧
    List.Forall₂ (fun d p => resolve render_primitives d = some p.iface) pre built ∧
    (∀ p ∈ built, p.addr ≠ 0) ∧
    m1.heap.live = built.reverse.flatMap blocks ++ m.heap.live ∧
    m1.log = m.log ++ built.flatMap create_events ∧
    built.flatMap (fun p => (blocks p).reverse) =
      List.range' (m.heap.brk + 1) (m1.heap.brk - m.heap.brk) ∧
    m.heap.brk ≤ m1.heap.brk := by
  induction pre generalizing m built with
  | nil =>
    simp only [construct_all, Option.some.injEq, Prod.mk.injEq] at hrun
    obtain ⟨rfl, rfl⟩ := hrun
    refine ⟨?_, List.Forall₂.nil, by simp, by simp, by simp, by simp, le_refl _⟩
    intro rest a s pa done k
    simp
  | cons d ds ih =>
    rcases hrpc : render_primitive_create render_primitives d state m with ⟨r0, m0⟩
    cases r0 with
    | error e => simp [construct_all, hrpc] at hrun
    | ok ret =>
      cases htail : construct_all render_primitives state ds m0 with
      | none => simp [construct_all, hrpc, htail] at hrun
      | some bm =>
        obtain ⟨built0, m2⟩ := bm
        simp only [construct_all, hrpc, htail, Option.some.injEq, Prod.mk.injEq] at hrun
        obtain ⟨rfl, rfl⟩ := hrun
        obtain ⟨hres, haddr, hlive0, hlog0, hrange0, hbrk0⟩ :=
          render_primitive_create_built render_primitives d state m ret m0 hrpc
        obtain ⟨hloop, hforall, hnz, hlive, hlog, hrange, hbrk⟩ := ih m0 built0 htail
        refine ⟨?_, ?_, ?_, ?_, ?_, ?_, ?_⟩
        · intro rest a s pa done k
          have hset :
              (done ++ List.replicate (ds.length + 1 + k) none).set done.length (some ret) =
                (done ++ [some ret]) ++ List.replicate (ds.length + k) none := by
            have hk : ds.length + 1 + k = (ds.length + k) + 1 := by omega
            rw [hk]
            exact set_slot done (ds.length + k) (some ret)
          have hnext := hloop rest a s pa (done ++ [some ret]) k
          simp only [List.length_append, List.length_singleton] at hnext
          simp only [List.cons_append, create_loop, hrpc, List.length_cons, hset, List.append_eq]
          rw [hnext]
          have hidx : done.length + 1 + ds.length = done.length + (ds.length + 1) := by omega
          rw [hidx]
          simp [List.append_assoc]
        · exact List.Forall₂.cons hres hforall
        · intro p hp
          rcases List.mem_cons.mp hp with rfl | hp
          · exact haddr
          · exact hnz p hp
        · rw [hlive, hlive0]
          simp [List.flatMap_append, List.append_assoc]
        · rw [hlog, hlog0]
          simp [List.flatMap_cons, List.append_assoc]
        · rw [List.flatMap_cons, hrange, hrange0]
          have h1 : m0.heap.brk + 1 = m.heap.brk + 1 + 1 * (m0.heap.brk - m.heap.brk) := by
            omega
          rw [h1, List.range'_append]
          congr 1
          omega
        · omega

/-- Every run of the constructions is of one of two kinds: all of them
return an instance, or there is a first descriptor whose construction fails,
the ones before it having returned instances. -/
theorem construct_all_cases {W : Type}
    (render_primitives : List (RenderPrimitiveInterface W)) (state : Ptr)
    (ds : List PyPrimitive) (m : Machine W) :
    (∃ built m1, construct_all render_primitives state ds m = some (built, m1)) ∨
    (∃ pre d post built m0 e m2, ds = pre ++ d :: post ∧
      construct_all render_primitives state pre m = some (built, m0) ∧
      render_primitive_create render_primitives d state m0 = (.error e, m2)) := by
  induction ds generalizing m with
  | nil => exact Or.inl ⟨[], m, rfl⟩
  | cons d ds ih =>
    rcases hrpc : render_primitive_create render_primitives d state m with ⟨r0, m0⟩
    cases r0 with
    | error e => exact Or.inr ⟨[], d, ds, [], m, e, m0, rfl, rfl, hrpc⟩
    | ok ret =>
      rcases ih m0 with ⟨built, m1, h⟩ | ⟨pre, d1, post, built, m1, e, m2, hds, hpre, hd⟩
      · exact Or.inl ⟨ret :: built, m1, by simp [construct_all, hrpc, h]⟩
      · exact Or.inr ⟨d :: pre, d1, post, ret :: built, m1, e, m2, by simp [hds],
          by simp [construct_all, hrpc, hpre], hd⟩

/-- Descriptors that construct successfully one after the other from the
machine left by the two allocations of `render_mode_create` make the call
return the mode of the instances built. -/
theorem render_mode_create_constructed {W : Type}
    (render_primitives : List (RenderPrimitiveInterface W)) (state : Ptr)
    (mode : List PyPrimitive) (m : Machine W) (built : List (RenderPrimitive W))
    (m1 : Machine W)
    (hrun : construct_all render_primitives state mode (calloc (calloc m).2).2 =
      some (built, m1)) :
    render_mode_create render_primitives (some mode) state m =
      (.ok ⟨m.heap.brk + 1, state, m.heap.brk + 1 + 1, built.map some⟩, m1) := by
  obtain ⟨hloop, -, -, -, -, -, -⟩ :=
    create_loop_constructed render_primitives state mode _ built m1 hrun
  have h := hloop [] (m.heap.brk + 1) state (m.heap.brk + 1 + 1) [] 0
  simp only [List.append_nil, List.length_nil, Nat.add_zero, List.nil_append,
    List.replicate_zero, Nat.zero_add, create_loop] at h
  simp only [render_mode_create]
  exact h

/-- What `render_mode_create` does when the descriptors of `pre` construct
successfully and the construction of the next descriptor `d` fails: it
returns the error of `d`, having torn down the partially built mode. -/
theorem render_mode_create_failure {W : Type}
    (render_primitives : List (RenderPrimitiveInterface W)) (state : Ptr)
    (pre : List PyPrimitive) (d : PyPrimitive) (post : List PyPrimitive) (m : Machine W)
    (built : List (RenderPrimitive W)) (m0 : Machine W) (e : CreateError) (m2 : Machine W)
    (hpre : construct_all render_primitives state pre (calloc (calloc m).2).2 =
      some (built, m0))
    (hd : render_primitive_create render_primitives d state m0 = (.error e, m2)) :
    ∃ (m1 : Machine W) (evs evs_d : List Event),
      m2.log = m0.log ++ evs_d ∧
      List.Forall₂ (fun d p => resolve render_primitives d = some p.iface) pre built ∧
      render_mode_create render_primitives (some (pre ++ d :: post)) state m = (.error e, m1) ∧
      m1.log = m.log ++ evs ∧
      evs = [Event.calloc (m.heap.brk + 1), Event.calloc (m.heap.brk + 1 + 1)] ++
        built.flatMap create_events ++ evs_d ++
        destroy_events (built.map some ++ List.replicate (1 + post.length) none) 0 ++
        [Event.free (m.heap.brk + 1 + 1), Event.free (m.heap.brk + 1)] ∧
      m1.heap.live = m.heap.live ∧
      (frees evs).Perm (callocs evs) ∧ (callocs evs).Nodup ∧
      2 + pre.length ≤ (callocs evs).length ∧
      finishes evs = (List.range pre.length).filter
        (kind_defines_finish render_primitives (pre ++ d :: post)) := by
  obtain ⟨hloop, hforall, hnz, hlive, hlog, hrange, hbrk⟩ :=
    create_loop_constructed render_primitives state pre _ built m0 hpre
  have hrpc := hd
  obtain ⟨hlive2, evs_d, hlog2, hfrees_d, hcallocs_d, hbrk2, hfin_d⟩ :=
    render_primitive_create_error render_primitives d state m0 e m2 hrpc
  have hlen : pre.length = built.length := hforall.length_eq
  have hrun := hloop (d :: post) (m.heap.brk + 1) state (m.heap.brk + 1 + 1) []
    (1 + post.length)
  simp only [List.length_nil, List.nil_append, Nat.zero_add, create_loop, hrpc] at hrun
  have hlen2 : (pre ++ d :: post).length = pre.length + (1 + post.length) := by
    simp only [List.length_append, List.length_cons]
    omega
  have hcreate : render_mode_create render_primitives (some (pre ++ d :: post)) state m =
      (.error e, render_mode_destroy
        ⟨m.heap.brk + 1, state, m.heap.brk + 1 + 1,
          built.map some ++ List.replicate (1 + post.length) none⟩ m2) := by
    simp only [render_mode_create, hlen2]
    exact hrun
  have hlogb : (calloc (calloc m).2).2.log =
      m.log ++ [Event.calloc (m.heap.brk + 1), Event.calloc (m.heap.brk + 1 + 1)] := by
    simp [calloc]
  have hliveb : (calloc (calloc m).2).2.heap.live =
      (m.heap.brk + 1 + 1) :: (m.heap.brk + 1) :: m.heap.live := by
    simp [calloc]
  have hbrkb : (calloc (calloc m).2).2.heap.brk = m.heap.brk + 1 + 1 := by
    simp [calloc]
  refine ⟨_, _, evs_d, hlog2, hforall, hcreate, ?_, rfl, ?_, ?_, ?_, ?_, ?_⟩
  · simp only [render_mode_destroy, destroy_loop_eq, free, hlog2, hlog, hlogb]
    simp [List.append_assoc]
  · simp only [render_mode_destroy, destroy_loop_eq, free, reduceOption_built, hlive2, hlive,
      hliveb]
    have hperm : (built.flatMap blocks).Perm (built.reverse.flatMap blocks) :=
      List.Perm.flatMap_right blocks (List.reverse_perm built).symm
    simp [append_diff_perm _ _ _ hperm]
  · simp only [frees_append, callocs_append, frees_flatMap_create_events,
      callocs_flatMap_create_events built hnz, frees_destroy_events, callocs_destroy_events,
      reduceOption_built, hfrees_d]
    have h1 : (built.flatMap blocks).Perm (built.flatMap (fun p => (blocks p).reverse)) :=
      List.Perm.flatMap_left built (fun p _ => (List.reverse_perm (blocks p)).symm)
    have h2 : (callocs evs_d).reverse.Perm (callocs evs_d) := List.reverse_perm _
    simp only [frees, callocs, List.filterMap_cons, List.filterMap_nil, List.nil_append,
      List.append_nil]
    have h3 : [m.heap.brk + 1 + 1, m.heap.brk + 1].Perm [m.heap.brk + 1, m.heap.brk + 1 + 1] :=
      List.Perm.swap _ _ _
    exact ((h2.append h1).append h3).trans
      ((List.perm_append_comm).trans (List.Perm.append_left _ List.perm_append_comm))
  · have hall : callocs ([Event.calloc (m.heap.brk + 1), Event.calloc (m.heap.brk + 1 + 1)] ++
        built.flatMap create_events ++ evs_d ++
        destroy_events (built.map some ++ List.replicate (1 + post.length) none) 0 ++
        [Event.free (m.heap.brk + 1 + 1), Event.free (m.heap.brk + 1)]) =
        List.range' (m.heap.brk + 1) (m2.heap.brk - m.heap.brk) := by
      simp only [callocs_append, callocs_flatMap_create_events built hnz,
        callocs_destroy_events, hrange, hcallocs_d, hbrkb]
      have e1 : callocs [Event.calloc (m.heap.brk + 1), Event.calloc (m.heap.brk + 1 + 1)] =
          List.range' (m.heap.brk + 1) 2 := by
        simp [callocs, List.range'_succ]
      have e2 : callocs [Event.free (m.heap.brk + 1 + 1), Event.free (m.heap.brk + 1)] = [] := by
        simp [callocs]
      rw [e1, e2, List.append_nil, List.append_nil]
      rw [hbrkb] at hbrk
      have s1 : m.heap.brk + 1 + 1 + 1 = m.heap.brk + 1 + 1 * 2 := by omega
      rw [s1, List.range'_append]
      have s2 : m0.heap.brk + 1 =
          m.heap.brk + 1 + 1 * (m0.heap.brk - (m.heap.brk + 1 + 1) + 2) := by omega
      rw [s2, List.range'_append]
      congr 1
      omega
    rw [hall]
    exact List.nodup_range' _ _
  · simp only [callocs_append, callocs_flatMap_create_events built hnz, List.length_append]
    have := length_le_flatMap_blocks built hnz
    have e1 : (callocs [Event.calloc (m.heap.brk + 1),
        Event.calloc (m.heap.brk + 1 + 1)]).length = 2 := by
      simp [callocs]
    omega
  · simp only [finishes_append, finishes_flatMap_create_events, hfin_d, finishes_destroy_events]
    have e1 : finishes [Event.calloc (m.heap.brk + 1), Event.calloc (m.heap.brk + 1 + 1)] = [] := by
      simp [finishes]
    have e2 : finishes [Event.free (m.heap.brk + 1 + 1), Event.free (m.heap.brk + 1)] = [] := by
      simp [finishes]
    rw [e1, e2, List.append_nil, List.append_nil, List.nil_append, List.nil_append,
      ← List.range_eq_range', hlen]
    apply List.filter_congr
    intro j hj
    rw [List.mem_range] at hj
    rw [kind_defines_finish_eq render_primitives pre (d :: post) built hforall j (by omega)]
    simp

/-! ## Failure of `render_mode_create` -/

theorem find_eq_none_of_names {W : Type} (render_primitives : List (RenderPrimitiveInterface W))
    (name : String) :
    render_primitives.find? (fun r => strcmp r.name name == 0) = none ↔
      ∀ r ∈ render_primitives, strcmp r.name name ≠ 0 := by
  rw [List.find?_eq_none]
  constructor
  · intro h r hr heq
    exact h r hr (by simp [heq])
  · intro h r hr hbeq
    exact h r hr (by simpa using hbeq)

/-- A descriptor whose name `strcmp` finds equal to the name of no entry of
the table is refused before anything is allocated or run. -/
theorem render_primitive_create_unresolved {W : Type}
    (render_primitives : List (RenderPrimitiveInterface W)) (prim : PyPrimitive)
    (state : Ptr) (m : Machine W) (name : String) (hname : prim.name = some name)
    (hun : ∀ r ∈ render_primitives, strcmp r.name name ≠ 0) :
    render_primitive_create render_primitives prim state m =
      (.error (.raised (.RuntimeError ("invalid primitive name: " ++ c_str name))), m) := by
  have hfind := (find_eq_none_of_names render_primitives name).mpr hun
  simp only [render_primitive_create, hname, hfind]

theorem freed_exactly_once (fs cs : List Ptr) (hperm : fs.Perm cs) (hnodup : cs.Nodup) :
    (∀ p ∈ cs, fs.count p = 1) ∧ (∀ p ∈ fs, p ∈ cs) := by
  constructor
  · intro p hp
    rw [hperm.count_eq]
    exact List.count_eq_one_of_mem hnodup hp
  · intro p hp
    exact hperm.subset hp

/-- C6.  Let `render_mode_create` be called on a sequence whose descriptors
before position `i` (the list `pre`) construct successfully in the run, one
after the other from the machine left by the allocation of the mode and of the
slot array, and whose descriptor `i` names a kind that is not in the table (no
entry has a name that `strcmp` finds equal to it).  Then the call returns no
mode but the `invalid primitive name` error, and nothing it allocated stays
live: the set of live blocks is what it was before the call, the blocks
allocated during the call (the mode, the slot array, and the record and data
block of every instance built before `i`) are pairwise distinct, each of them
is freed exactly once, and nothing else is freed. -/
theorem render_mode_create_unresolved {W : Type}
    (render_primitives : List (RenderPrimitiveInterface W)) (state : Ptr)
    (pre : List PyPrimitive) (d : PyPrimitive) (post : List PyPrimitive) (name : String)
    (m : Machine W) (built : List (RenderPrimitive W)) (m0 : Machine W)
    (hpre : construct_all render_primitives state pre (calloc (calloc m).2).2 =
      some (built, m0))
    (hname : d.name = some name)
    (hun : ∀ r ∈ render_primitives, strcmp r.name name ≠ 0) :
    ∃ m1 evs,
      render_mode_create render_primitives (some (pre ++ d :: post)) state m =
        (.error (.raised (.RuntimeError ("invalid primitive name: " ++ c_str name))), m1) ∧
      m1.heap.live = m.heap.live ∧
      m1.log = m.log ++ evs ∧
      2 + pre.length ≤ (callocs evs).length ∧
      (callocs evs).Nodup ∧
      (∀ p ∈ callocs evs, (frees evs).count p = 1) ∧
      (∀ p ∈ frees evs, p ∈ callocs evs) := by
  obtain ⟨m1, evs, evs_d, -, -, hcreate, hlog, -, hlive, hperm, hnodup, hcount, -⟩ :=
    render_mode_create_failure render_primitives state pre d post m built m0 _ m0 hpre
      (render_primitive_create_unresolved render_primitives d state m0 name hname hun)
  obtain ⟨honce, hsub⟩ := freed_exactly_once _ _ hperm hnodup
  exact ⟨m1, evs, hcreate, hlive, hlog, hcount, hnodup, honce, hsub⟩

/-- C6 at the sequence `[P2, nope, P1]` over the table `[P1, P2, P3]`. -/
theorem render_mode_create_unresolved_witness :
    construct_all failing_primitives 100 [⟨some "P2", none⟩]
        (calloc (calloc example_machine).2).2 = some ([⟨3, P2, 4⟩], machine_after_P2) ∧
    (⟨some "nope", none⟩ : PyPrimitive).name = some "nope" ∧
    (∀ r ∈ failing_primitives, strcmp r.name "nope" ≠ 0) ∧
    ∃ m1 evs,
      render_mode_create failing_primitives
          (some ([⟨some "P2", none⟩] ++ ⟨some "nope", none⟩ :: [⟨some "P1", none⟩]))
          100 example_machine =
        (.error (.raised (.RuntimeError ("invalid primitive name: " ++ c_str "nope"))), m1) ∧
      m1.heap.live = example_machine.heap.live ∧
      m1.log = example_machine.log ++ evs ∧
      2 + [(⟨some "P2", none⟩ : PyPrimitive)].length ≤ (callocs evs).length ∧
      (callocs evs).Nodup ∧
      (∀ p ∈ callocs evs, (frees evs).count p = 1) ∧
      (∀ p ∈ frees evs, p ∈ callocs evs) :=
  ⟨rfl, rfl, by decide,
    render_mode_create_unresolved failing_primitives 100 [⟨some "P2", none⟩]
      ⟨some "nope", none⟩ [⟨some "P1", none⟩] "nope" example_machine [⟨3, P2, 4⟩]
      machine_after_P2 rfl rfl (by decide)⟩

/-- C7.  Let `render_mode_create` be called on a sequence whose descriptors
before position `i` (the list `pre`) construct successfully in the run, one
after the other from the machine left by the allocation of the mode and of the
slot array, and let the construction of descriptor `i` fail on the machine
then reached (its kind does not resolve, or its `start` hook reports
failure).  Then the call fails with the error of descriptor `i`, and during the
cleanup `finish` runs exactly once, in increasing slot order, for each slot
before `i` whose kind defines `finish`, and for no slot from `i` on; every
block allocated during the call, the data block of the failed instance
included, is freed exactly once, and nothing else is freed. -/
theorem render_mode_create_cleanup {W : Type}
    (render_primitives : List (RenderPrimitiveInterface W)) (state : Ptr)
    (pre : List PyPrimitive) (d : PyPrimitive) (post : List PyPrimitive) (m : Machine W)
    (built : List (RenderPrimitive W)) (m0 : Machine W) (e : CreateError) (m2 : Machine W)
    (hpre : construct_all render_primitives state pre (calloc (calloc m).2).2 =
      some (built, m0))
    (hd : render_primitive_create render_primitives d state m0 = (.error e, m2)) :
    ∃ m1 evs,
      render_mode_create render_primitives (some (pre ++ d :: post)) state m = (.error e, m1) ∧
      m1.log = m.log ++ evs ∧
      finishes evs = (List.range pre.length).filter
        (kind_defines_finish render_primitives (pre ++ d :: post)) ∧
      (callocs evs).Nodup ∧
      (∀ p ∈ callocs evs, (frees evs).count p = 1) ∧
      (∀ p ∈ frees evs, p ∈ callocs evs) ∧
      m1.heap.live = m.heap.live := by
  obtain ⟨m1, evs, evs_d, -, -, hcreate, hlog, -, hlive, hperm, hnodup, -, hfin⟩ :=
    render_mode_create_failure render_primitives state pre d post m built m0 e m2 hpre hd
  obtain ⟨honce, hsub⟩ := freed_exactly_once _ _ hperm hnodup
  exact ⟨m1, evs, hcreate, hlog, hfin, hnodup, honce, hsub, hlive⟩

/-- C7 at the sequence `[P5, P5]` over the table `[P1, P2, P5]`: the `start`
hook of `P5` succeeds on the first descriptor and, the world having changed,
fails on the second; the cleanup runs the `finish` hook of slot `0` only. -/
theorem render_mode_create_cleanup_witness :
    construct_all counting_primitives 100 [⟨some "P5", none⟩]
        (calloc (calloc example_machine).2).2 = some ([⟨3, P5, 4⟩], machine_after_P5) ∧
    render_primitive_create counting_primitives ⟨some "P5", none⟩ 100 machine_after_P5 =
      (.error (.start_failed 1),
        ⟨⟨6, [4, 3, 2, 1]⟩,
          machine_after_P5.log ++ [Event.calloc 5, Event.calloc 6, Event.start "P5" 5,
            Event.free 6, Event.free 5], 2⟩) ∧
    ∃ m1 evs,
      render_mode_create counting_primitives
          (some ([⟨some "P5", none⟩] ++ ⟨some "P5", none⟩ :: [])) 100 example_machine =
        (.error (.start_failed 1), m1) ∧
      m1.log = example_machine.log ++ evs ∧
      finishes evs = (List.range [(⟨some "P5", none⟩ : PyPrimitive)].length).filter
        (kind_defines_finish counting_primitives
          ([⟨some "P5", none⟩] ++ ⟨some "P5", none⟩ :: [])) ∧
      (callocs evs).Nodup ∧
      (∀ p ∈ callocs evs, (frees evs).count p = 1) ∧
      (∀ p ∈ frees evs, p ∈ callocs evs) ∧
      m1.heap.live = example_machine.heap.live :=
  ⟨rfl, rfl,
    render_mode_create_cleanup counting_primitives 100 [⟨some "P5", none⟩] ⟨some "P5", none⟩ []
      example_machine [⟨3, P5, 4⟩] machine_after_P5 (.start_failed 1) _ rfl rfl⟩

/-! ## Kind resolution -/

/-- C8, as stated, fails: over the table `[P1, P2]` no entry has a name
equal to the Python string `P1`, NUL, `x`, and yet `render_primitive_create`
does not fail on a descriptor of that name: it returns an instance of `P1`,
because `strcmp` reads the name up to its first NUL. -/
theorem name_with_nul_resolves :
    (∀ r ∈ example_primitives, r.name ≠ name_with_nul) ∧
    ∃ ret m1,
      render_primitive_create example_primitives ⟨some name_with_nul, none⟩ 100
        example_machine = (.ok ret, m1) ∧
      ret.iface.name = "P1" ∧ m1.log = [Event.calloc 1] :=
  ⟨by decide, ⟨1, P1, 0⟩, ⟨⟨1, [1]⟩, [Event.calloc 1], 0⟩, rfl, rfl, rfl⟩

/-- C8, amended.  For a descriptor that carries the name `name`,
`render_primitive_create` fails with the `invalid primitive name` error
exactly when no entry of the table has a name that `strcmp` finds equal to
`name`, that is, equal to it as a C string, up to the first NUL; in that case
the machine is left as it was (nothing is allocated, no hook is invoked); and
whenever an instance is returned it is bound to the first entry of the table
whose name is equal to `name` as a C string. -/
theorem render_primitive_create_resolution {W : Type}
    (render_primitives : List (RenderPrimitiveInterface W)) (prim : PyPrimitive)
    (state : Ptr) (m : Machine W) (name : String) (hname : prim.name = some name) :
    ((render_primitive_create render_primitives prim state m).1 =
        .error (.raised (.RuntimeError ("invalid primitive name: " ++ c_str name))) ↔
      ∀ r ∈ render_primitives, c_str r.name ≠ c_str name) ∧
    ((∀ r ∈ render_primitives, c_str r.name ≠ c_str name) →
      (render_primitive_create render_primitives prim state m).2 = m) ∧
    (∀ ret, (render_primitive_create render_primitives prim state m).1 = .ok ret →
      ret.iface ∈ render_primitives ∧ c_str ret.iface.name = c_str name ∧
      render_primitives.find? (fun r => decide (c_str r.name = c_str name)) =
        some ret.iface) := by
  have hpred : (fun r : RenderPrimitiveInterface W => decide (c_str r.name = c_str name)) =
      (fun r => strcmp r.name name == 0) := by
    funext r
    by_cases h : c_str r.name = c_str name
    · simp [h, (strcmp_eq_zero r.name name).mpr h]
    · have h2 : strcmp r.name name ≠ 0 := fun h0 => h ((strcmp_eq_zero r.name name).mp h0)
      simp [h, h2]
  have hiff : (∀ r ∈ render_primitives, c_str r.name ≠ c_str name) ↔
      ∀ r ∈ render_primitives, strcmp r.name name ≠ 0 := by
    constructor
    · intro h r hr h0
      exact h r hr ((strcmp_eq_zero r.name name).mp h0)
    · intro h r hr h0
      exact h r hr ((strcmp_eq_zero r.name name).mpr h0)
  rw [hpred, hiff]
  refine ⟨⟨?_, ?_⟩, ?_, ?_⟩
  · intro herr
    rw [← find_eq_none_of_names]
    cases hfind : render_primitives.find? (fun r => strcmp r.name name == 0) with
    | none => rfl
    | some iface =>
      exfalso
      by_cases hds : iface.data_size > 0
      · cases hst : iface.start with
        | none => simp [render_primitive_create, hname, hfind, calloc, hds, hst] at herr
        | some start =>
          by_cases h0 : (start (m.heap.brk + 1 + 1) state prim m.world).1 = 0
          · simp [render_primitive_create, hname, hfind, calloc, hds, hst, h0] at herr
          · simp [render_primitive_create, hname, hfind, calloc, hds, hst, h0] at herr
      · cases hst : iface.start with
        | none => simp [render_primitive_create, hname, hfind, calloc, hds, hst] at herr
        | some start =>
          by_cases h0 : (start 0 state prim m.world).1 = 0
          · simp [render_primitive_create, hname, hfind, calloc, hds, hst, h0] at herr
          · simp [render_primitive_create, hname, hfind, calloc, hds, hst, h0] at herr
  · intro hun
    rw [render_primitive_create_unresolved render_primitives prim state m name hname hun]
  · intro hun
    rw [render_primitive_create_unresolved render_primitives prim state m name hname hun]
  · intro ret hok
    rcases hrpc : render_primitive_create render_primitives prim state m with ⟨r0, m1⟩
    rw [hrpc] at hok
    simp only at hok
    subst hok
    obtain ⟨hres, -, -, -, -, -⟩ :=
      render_primitive_create_built render_primitives prim state m ret m1 hrpc
    obtain ⟨name1, hname1, hfind⟩ := resolve_eq_some render_primitives prim ret.iface hres
    rw [hname] at hname1
    simp only [Option.some.injEq] at hname1
    subst hname1
    have hcmp : strcmp ret.iface.name name = 0 := by
      simpa using List.find?_some hfind
    exact ⟨List.mem_of_find?_eq_some hfind, (strcmp_eq_zero _ _).mp hcmp, hfind⟩

/-- C8, amended, at the descriptor named `P1`, NUL, `x` over the table
`[P1, P2]`. -/
theorem render_primitive_create_resolution_witness :
    (⟨some name_with_nul, none⟩ : PyPrimitive).name = some name_with_nul ∧
    ((render_primitive_create example_primitives ⟨some name_with_nul, none⟩ 100
          example_machine).1 =
        .error (.raised (.RuntimeError ("invalid primitive name: " ++ c_str name_with_nul))) ↔
      ∀ r ∈ example_primitives, c_str r.name ≠ c_str name_with_nul) ∧
    ((∀ r ∈ example_primitives, c_str r.name ≠ c_str name_with_nul) →
      (render_primitive_create example_primitives ⟨some name_with_nul, none⟩ 100
        example_machine).2 = example_machine) ∧
    (∀ ret, (render_primitive_create example_primitives ⟨some name_with_nul, none⟩ 100
        example_machine).1 = .ok ret →
      ret.iface ∈ example_primitives ∧ c_str ret.iface.name = c_str name_with_nul ∧
      example_primitives.find? (fun r => decide (c_str r.name = c_str name_with_nul)) =
        some ret.iface) :=
  ⟨rfl, render_primitive_create_resolution example_primitives ⟨some name_with_nul, none⟩ 100
    example_machine name_with_nul rfl⟩

/-! ## The option helper -/

theorem lookup_eq_none_of_not_mem (items : List (String × PyObject)) (n : String)
    (h : ∀ v, (n, v) ∉ items) : items.lookup n = none := by
  induction items with
  | nil => rfl
  | cons kv rest ih =>
    obtain ⟨k, v⟩ := kv
    have hk : n ≠ k := by
      intro hnk
      exact h v (by rw [hnk]; exact List.mem_cons_self _ _)
    have hbeq : (n == k) = false := by simpa using hk
    rw [List.lookup_cons, hbeq]
    exact ih (fun v1 hv1 => h v1 (List.mem_cons_of_mem _ hv1))

/-- C9.  Whatever the expected format, when the option bag is absent, or
the name is absent, or the name is not a key of the bag's option values,
`render_mode_parse_option` returns `1` (not provided), leaves no exception
pending and leaves the caller's output variables as they were. -/
theorem render_mode_parse_option_not_provided {O : Type}
    (PyArg_VaParse : PyObject → String → O → VaParseResult O)
    (support : Option PyPrimitive) (name : Option String) (format : String) (ap : O)
    (h : support = none ∨ name = none ∨
      ∃ s n items, support = some s ∧ name = some n ∧
        s.option_values = some (PyObject.dict items) ∧ ∀ v, (n, v) ∉ items) :
    render_mode_parse_option PyArg_VaParse support name format ap = ⟨1, ap, none⟩ := by
  rcases h with h | h | ⟨s, n, items, hs, hn, hdict, hkey⟩
  · subst h
    rfl
  · subst h
    cases support <;> rfl
  · subst hs hn
    have hlook := lookup_eq_none_of_not_mem items n hkey
    simp only [render_mode_parse_option, hdict, PyDict_GetItemString, hlook]

/-- C9 at the empty bag, the name `color` and the format of three integers:
the defaults `(7, 8, 9)` survive. -/
theorem render_mode_parse_option_not_provided_witness :
    ((some support_without_options = none ∨ some "color" = (none : Option String) ∨
      ∃ s n items, some support_without_options = some s ∧ some "color" = some n ∧
        s.option_values = some (PyObject.dict items) ∧ ∀ v, (n, v) ∉ items)) ∧
    render_mode_parse_option parse_ints (some support_without_options) (some "color") "iii"
      [7, 8, 9] = ⟨1, [7, 8, 9], none⟩ :=
  ⟨Or.inr (Or.inr ⟨support_without_options, "color", [], rfl, rfl, rfl,
      fun _ h => absurd h (List.not_mem_nil _)⟩),
    render_mode_parse_option_not_provided parse_ints (some support_without_options)
      (some "color") "iii" [7, 8, 9]
      (Or.inr (Or.inr ⟨support_without_options, "color", [], rfl, rfl, rfl,
        fun _ h => absurd h (List.not_mem_nil _)⟩))⟩

/-- C10, as stated, fails: with the defaults `(1, 2, 3)`, the bag that
holds `color = (1, 2, 3)` and the empty bag produce the same return value,
the same output variables and the same (empty) exception state. -/
theorem not_provided_same_as_success :
    render_mode_parse_option parse_ints (some support_with_color) (some "color") "iii"
        [1, 2, 3] = ⟨1, [1, 2, 3], none⟩ ∧
    render_mode_parse_option parse_ints (some support_without_options) (some "color") "iii"
        [1, 2, 3] = ⟨1, [1, 2, 3], none⟩ := by
  have hlen : "iii".length = 3 := by decide
  constructor
  · simp [render_mode_parse_option, support_with_color, PyDict_GetItemString, PyTuple_Check,
      parse_ints, as_ints, List.lookup, hlen]
  · rfl

/-- C10, amended.  The result reported for an option that is absent from
the bag (return value `1`, no exception pending, output variables untouched)
differs from every TypeMismatch result, which has return value `0` and a
`TypeError` pending; a present option that unpacks successfully yields the
non-zero return value of the parser with no exception pending, as an absent
option does. -/
theorem not_provided_distinct_from_type_mismatch {O : Type}
    (PyArg_VaParse : PyObject → String → O → VaParseResult O)
    (s : PyPrimitive) (n : String) (format : String) (ap : O) (dict : PyObject)
    (hdict : s.option_values = some dict) (habs : PyDict_GetItemString dict n = none) :
    render_mode_parse_option PyArg_VaParse (some s) (some n) format ap = ⟨1, ap, none⟩ ∧
    (∀ (s2 : PyPrimitive) (n2 format2 : String) (ap2 : O) (dict2 item : PyObject),
      s2.option_values = some dict2 → PyDict_GetItemString dict2 n2 = some item →
      (PyArg_VaParse (if PyTuple_Check item then item else PyObject.tuple [item])
        format2 ap2).ret = 0 →
      (render_mode_parse_option PyArg_VaParse (some s2) (some n2) format2 ap2).ret = 0 ∧
      (∃ msg, (render_mode_parse_option PyArg_VaParse (some s2) (some n2) format2 ap2).raised =
        some (PyErr.TypeError msg)) ∧
      (render_mode_parse_option PyArg_VaParse (some s2) (some n2) format2 ap2).ret ≠
        (render_mode_parse_option PyArg_VaParse (some s) (some n) format ap).ret ∧
      (render_mode_parse_option PyArg_VaParse (some s2) (some n2) format2 ap2).raised ≠
        (render_mode_parse_option PyArg_VaParse (some s) (some n) format ap).raised) ∧
    (∀ (s2 : PyPrimitive) (n2 format2 : String) (ap2 : O) (dict2 item : PyObject),
      s2.option_values = some dict2 → PyDict_GetItemString dict2 n2 = some item →
      (PyArg_VaParse (if PyTuple_Check item then item else PyObject.tuple [item])
        format2 ap2).ret ≠ 0 →
      (render_mode_parse_option PyArg_VaParse (some s2) (some n2) format2 ap2).ret ≠ 0 ∧
      (render_mode_parse_option PyArg_VaParse (some s2) (some n2) format2 ap2).raised = none) := by
  have hnp : render_mode_parse_option PyArg_VaParse (some s) (some n) format ap =
      ⟨1, ap, none⟩ := by
    simp only [render_mode_parse_option, hdict, habs]
  refine ⟨hnp, ?_, ?_⟩
  · intro s2 n2 format2 ap2 dict2 item hdict2 hitem hret
    rw [hnp]
    simp [render_mode_parse_option, hdict2, hitem, hret]
  · intro s2 n2 format2 ap2 dict2 item hdict2 hitem hret
    simp [render_mode_parse_option, hdict2, hitem, hret]

/-- C10, amended, at the empty bag, against the bag that holds
`color = "red"` (a mismatch for three integers). -/
theorem not_provided_distinct_from_type_mismatch_witness :
    support_without_options.option_values = some (PyObject.dict []) ∧
    PyDict_GetItemString (PyObject.dict []) "color" = none ∧
    (render_mode_parse_option parse_ints (some support_with_red) (some "color") "iii"
        [1, 2, 3]).ret ≠
      (render_mode_parse_option parse_ints (some support_without_options) (some "color") "iii"
        [1, 2, 3]).ret :=
  ⟨rfl, rfl,
    ((not_provided_distinct_from_type_mismatch parse_ints support_without_options "color"
      "iii" [1, 2, 3] (PyObject.dict []) rfl rfl).2.1 support_with_red "color" "iii" [1, 2, 3]
      (PyObject.dict [("color", PyObject.str "red")]) (PyObject.str "red") rfl
      (by simp [PyDict_GetItemString, List.lookup])
      (by
        have hlen : "iii".length = 3 := by decide
        simp [PyTuple_Check, parse_ints, as_ints, hlen])).2.2.1⟩

/-! ## The value returned by the two queries -/

/-- The value `render_mode_occluded` returns on a fully built mode: that of
the first hook that answers non-zero, or `0`. -/
theorem render_mode_occluded_value {W : Type} (self : RenderMode W) (x y z : Int)
    (m : Machine W) (hfull : fully_built self) :
    (∀ k, k < self.num_primitives → occluded_at self x y z m.world k ≠ 0 →
      (∀ j, j < k → occluded_at self x y z m.world j = 0) →
      ∃ m1, render_mode_occluded self x y z m = some (occluded_at self x y z m.world k, m1)) ∧
    ((∀ j, j < self.num_primitives → occluded_at self x y z m.world j = 0) →
      ∃ m1, render_mode_occluded self x y z m = some (0, m1)) := by
  obtain ⟨prims, hprims⟩ := (fully_built_iff self).mp hfull
  have hlen : self.num_primitives = prims.length := by
    simp [RenderMode.num_primitives, hprims]
  constructor
  · intro k hk hne hbefore
    rw [hlen] at hk
    obtain ⟨hsplit, -⟩ := split_at_index prims k hk
    have hvalk : occluded_at self x y z m.world k =
        occluded_value self.state x y z m.world prims[k] := by
      rw [occluded_at_eq self prims hprims, List.getElem?_eq_getElem hk]
      rfl
    have hpre : ∀ q ∈ prims.take k, occluded_value self.state x y z m.world q = 0 := by
      intro q hq
      obtain ⟨j, hj, hqj⟩ := List.getElem_of_mem hq
      have hjk : j < k := by
        rw [List.length_take] at hj
        omega
      have h0 := hbefore j hjk
      rw [occluded_at_eq self prims hprims, List.getElem?_eq_getElem (by omega)] at h0
      rw [← hqj, List.getElem_take]
      simpa using h0
    have hrun := occluded_loop_first self.state x y z (prims.take k) prims[k]
      (prims.drop (k + 1)) 0 m hpre (by rw [← hvalk]; exact hne)
    rw [← hsplit] at hrun
    unfold render_mode_occluded
    rw [hprims, hrun, hvalk]
    exact ⟨_, rfl⟩
  · intro hall
    have hz : ∀ q ∈ prims, occluded_value self.state x y z m.world q = 0 := by
      intro q hq
      obtain ⟨j, hj, hqj⟩ := List.getElem_of_mem hq
      have h0 := hall j (by rw [hlen]; exact hj)
      rw [occluded_at_eq self prims hprims, List.getElem?_eq_getElem hj] at h0
      rw [← hqj]
      simpa using h0
    unfold render_mode_occluded
    rw [hprims, occluded_loop_all_zero self.state x y z prims 0 m hz]
    exact ⟨_, rfl⟩

theorem fully_built_hidden_as_occluded {W : Type} (self : RenderMode W)
    (hfull : fully_built self) : fully_built self.hidden_as_occluded := by
  obtain ⟨prims, hprims⟩ := (fully_built_iff self).mp hfull
  refine (fully_built_iff _).mpr ⟨prims.map RenderPrimitive.hidden_as_occluded, ?_⟩
  simp [RenderMode.hidden_as_occluded, hprims, List.map_map, Function.comp_def]

theorem occluded_at_hidden_as_occluded {W : Type} (self : RenderMode W) (x y z : Int) (w : W)
    (j : Nat) : occluded_at self.hidden_as_occluded x y z w j = hidden_at self x y z w j := by
  unfold occluded_at hidden_at
  simp only [RenderMode.hidden_as_occluded, List.getElem?_map]
  cases hslot : self.primitives[j]? with
  | none => rfl
  | some slot =>
    cases slot with
    | none => rfl
    | some p => rfl

theorem render_mode_hidden_eq {W : Type} (self : RenderMode W) (x y z : Int)
    (m : Machine W) (hfull : fully_built self) (r : Int) (m1 : Machine W)
    (h : render_mode_occluded self.hidden_as_occluded x y z m = some (r, m1)) :
    ∃ m2, render_mode_hidden self x y z m = some (r, m2) := by
  obtain ⟨prims, hprims⟩ := (fully_built_iff self).mp hfull
  obtain ⟨r1, slots, h1, h2⟩ := hidden_loop_lockstep self.state x y z prims 0 0 m m rfl
  have hmap : self.hidden_as_occluded.primitives =
      (prims.map RenderPrimitive.hidden_as_occluded).map some := by
    simp [RenderMode.hidden_as_occluded, hprims, List.map_map, Function.comp_def]
  have hocc : render_mode_occluded self.hidden_as_occluded x y z m =
      some (r1, { m with log := m.log ++ slots.map Event.occluded }) := by
    unfold render_mode_occluded
    rw [hmap]
    exact h2
  rw [hocc] at h
  have hr : r1 = r := by
    have := Option.some.inj h
    exact congrArg Prod.fst this
  unfold render_mode_hidden
  rw [hprims, h1, hr]
  exact ⟨_, rfl⟩

/-- C17.  On a fully built mode `render_mode_occluded` and
`render_mode_hidden` return the value of the hook as it is, not a truth
value: when slot `k` is the first whose hook returns a non-zero value, the
call returns exactly that value, and when every hook returns `0` (or no slot
defines the hook) it returns `0`. -/
theorem render_mode_result_not_normalised {W : Type} (self : RenderMode W) (x y z : Int)
    (m : Machine W) (hfull : fully_built self) :
    (∀ k, k < self.num_primitives → occluded_at self x y z m.world k ≠ 0 →
      (∀ j, j < k → occluded_at self x y z m.world j = 0) →
      ∃ m1, render_mode_occluded self x y z m = some (occluded_at self x y z m.world k, m1)) ∧
    ((∀ j, j < self.num_primitives → occluded_at self x y z m.world j = 0) →
      ∃ m1, render_mode_occluded self x y z m = some (0, m1)) ∧
    (∀ k, k < self.num_primitives → hidden_at self x y z m.world k ≠ 0 →
      (∀ j, j < k → hidden_at self x y z m.world j = 0) →
      ∃ m1, render_mode_hidden self x y z m = some (hidden_at self x y z m.world k, m1)) ∧
    ((∀ j, j < self.num_primitives → hidden_at self x y z m.world j = 0) →
      ∃ m1, render_mode_hidden self x y z m = some (0, m1)) := by
  obtain ⟨hocc1, hocc0⟩ := render_mode_occluded_value self x y z m hfull
  obtain ⟨hhid1, hhid0⟩ := render_mode_occluded_value self.hidden_as_occluded x y z m
    (fully_built_hidden_as_occluded self hfull)
  have hnum : self.hidden_as_occluded.num_primitives = self.num_primitives := by
    simp [RenderMode.num_primitives, RenderMode.hidden_as_occluded]
  refine ⟨hocc1, hocc0, ?_, ?_⟩
  · intro k hk hne hbefore
    obtain ⟨m1, hrun⟩ := hhid1 k (by rw [hnum]; exact hk)
      (by rw [occluded_at_hidden_as_occluded]; exact hne)
      (fun j hj => by rw [occluded_at_hidden_as_occluded]; exact hbefore j hj)
    rw [occluded_at_hidden_as_occluded] at hrun
    exact render_mode_hidden_eq self x y z m hfull _ m1 hrun
  · intro hall
    obtain ⟨m1, hrun⟩ := hhid0
      (fun j hj => by
        rw [occluded_at_hidden_as_occluded]
        exact hall j (by rw [← hnum]; exact hj))
    exact render_mode_hidden_eq self x y z m hfull _ m1 hrun

/-- C17 at the mode `[P1, P4]`: `P1` answers `0`, `P4` answers `6` to
`occluded` and `-2` to `hidden`; the calls return `6` and `-2`. -/
theorem render_mode_result_not_normalised_witness :
    fully_built example_mode_six ∧
    (∃ m1, render_mode_occluded example_mode_six 0 0 0 example_machine = some (6, m1)) ∧
    (∃ m1, render_mode_hidden example_mode_six 0 0 0 example_machine = some (-2, m1)) :=
  ⟨rfl, by
    have h := (render_mode_result_not_normalised example_mode_six 0 0 0 example_machine rfl).1
      1 (by decide) (by decide) (by decide)
    simpa [occluded_at, example_mode_six, P1, P4] using h, by
    have h := (render_mode_result_not_normalised example_mode_six 0 0 0 example_machine
      rfl).2.2.1 1 (by decide) (by decide) (by decide)
    simpa [hidden_at, example_mode_six, P1, P4] using h⟩

/-! ## Order of the teardown -/

theorem destroy_events_eq_flatMap {W : Type} (slots : List (Option (RenderPrimitive W)))
    (i : Nat) :
    destroy_events slots i =
      (slots.enumFrom i).flatMap (fun js => slot_teardown js.1 js.2) := by
  induction slots generalizing i with
  | nil => rfl
  | cons slot rest ih =>
    cases slot with
    | none =>
      simp only [destroy_events, List.enumFrom_cons, List.flatMap_cons]
      rw [ih (i + 1)]
      rfl
    | some p =>
      simp only [destroy_events, List.enumFrom_cons, List.flatMap_cons]
      rw [ih (i + 1)]
      rfl

theorem finishes_destroy_events_slots {W : Type} (slots : List (Option (RenderPrimitive W)))
    (i : Nat) :
    finishes (destroy_events slots i) =
      (List.range' i slots.length).filter (fun j =>
        match slots[j - i]? with
        | some (some p) => p.iface.finish.isSome
        | _ => false) := by
  induction slots generalizing i with
  | nil => rfl
  | cons slot rest ih =>
    have htail : (List.range' (i + 1) rest.length).filter (fun j =>
          match (slot :: rest)[j - i]? with
          | some (some p) => p.iface.finish.isSome
          | _ => false) =
        (List.range' (i + 1) rest.length).filter (fun j =>
          match rest[j - (i + 1)]? with
          | some (some p) => p.iface.finish.isSome
          | _ => false) := by
      apply List.filter_congr
      intro j hj
      rw [List.mem_range'_1] at hj
      have : j - i = (j - (i + 1)) + 1 := by omega
      rw [this]
      simp
    simp only [List.length_cons, List.range'_succ]
    rw [List.filter_cons, htail, ← ih (i + 1)]
    cases slot with
    | none => simp [destroy_events]
    | some p =>
      simp only [destroy_events, finishes_append]
      cases hf : p.iface.finish <;> by_cases h1 : p.primitive = 0 <;>
        by_cases h2 : p.addr = 0 <;> simp [finishes, hf, h1, h2]

/-- C18.  `render_mode_destroy` tears the mode down front to back: its
events are, slot after slot in increasing index order, the `finish` hook of
the slot (when the slot is filled and the kind defines one) followed at once
by the release of that instance's data block and of its record, and only
after the last slot the release of the slot array and then of the mode.  In
particular the `finish` hooks run in increasing slot order, once per filled
slot that defines one. -/
theorem render_mode_destroy_order {W : Type} (self : RenderMode W) (m : Machine W) :
    (render_mode_destroy self m).log =
      m.log ++ self.primitives.enum.flatMap (fun js => slot_teardown js.1 js.2) ++
        (if self.primitives_addr ≠ 0 then [Event.free self.primitives_addr] else []) ++
        (if self.addr ≠ 0 then [Event.free self.addr] else []) ∧
    finishes (self.primitives.enum.flatMap (fun js => slot_teardown js.1 js.2)) =
      (List.range self.num_primitives).filter (defines_finish self) := by
  constructor
  · simp only [render_mode_destroy, destroy_loop_eq, destroy_events_eq_flatMap, List.enum]
    by_cases h1 : self.primitives_addr = 0 <;> by_cases h2 : self.addr = 0 <;>
      simp [free, h1, h2]
  · have h := finishes_destroy_events_slots self.primitives 0
    rw [destroy_events_eq_flatMap] at h
    simp only [List.enum]
    rw [h, ← List.range_eq_range']
    rfl

/-! ## Order of the `start` hooks -/

theorem starts_create_events {W : Type} (p : RenderPrimitive W) :
    starts (create_events p) = if p.iface.start.isSome then [p.iface.name] else [] := by
  by_cases h1 : p.primitive = 0 <;> cases hs : p.iface.start <;>
    simp [starts, create_events, h1, hs]

theorem starts_destroy_events {W : Type} (slots : List (Option (RenderPrimitive W))) (i : Nat) :
    starts (destroy_events slots i) = [] := by
  induction slots generalizing i with
  | nil => rfl
  | cons slot rest ih =>
    cases slot with
    | none => simp only [destroy_events]; exact ih (i + 1)
    | some p =>
      simp only [destroy_events, starts_append, ih (i + 1)]
      cases hf : p.iface.finish <;> by_cases h1 : p.primitive = 0 <;>
        by_cases h2 : p.addr = 0 <;> simp [starts, hf, h1, h2]

/-- The `start` events of the instances built are those of the kinds the
descriptors resolve to. -/
theorem starts_built {W : Type} (render_primitives : List (RenderPrimitiveInterface W))
    (pre : List PyPrimitive) (built : List (RenderPrimitive W))
    (hforall : List.Forall₂ (fun d p => resolve render_primitives d = some p.iface) pre built) :
    starts (built.flatMap create_events) = started_kinds render_primitives pre := by
  induction hforall with
  | nil => rfl
  | @cons d p ds ps hd _ ih =>
    rw [List.flatMap_cons, starts_append, starts_create_events, ih]
    unfold started_kinds
    rw [List.filterMap_cons_some hd]
    by_cases hs : p.iface.start.isSome = true
    · simp [hs]
    · simp [hs]

/-- The `start` events of one call of `render_primitive_create`: one event
when the kind resolves and defines `start`, none otherwise. -/
theorem render_primitive_create_starts {W : Type}
    (render_primitives : List (RenderPrimitiveInterface W)) (prim : PyPrimitive)
    (state : Ptr) (m : Machine W) :
    ∃ evs, (render_primitive_create render_primitives prim state m).2.log = m.log ++ evs ∧
      starts evs = started_kinds render_primitives [prim] := by
  cases hname : prim.name with
  | none =>
    refine ⟨[], ?_, ?_⟩
    · simp [render_primitive_create, hname]
    · simp [started_kinds, resolve, hname, starts]
  | some name =>
    cases hfind : render_primitives.find? (fun r => strcmp r.name name == 0) with
    | none =>
      refine ⟨[], ?_, ?_⟩
      · simp [render_primitive_create, hname, hfind]
      · simp [started_kinds, resolve, hname, hfind, starts]
    | some iface =>
      have hres : resolve render_primitives prim = some iface := by
        simp [resolve, hname, hfind]
      by_cases hds : iface.data_size > 0
      · cases hst : iface.start with
        | none =>
          refine ⟨[Event.calloc (m.heap.brk + 1), Event.calloc (m.heap.brk + 1 + 1)], ?_, ?_⟩
          · simp [render_primitive_create, hname, hfind, calloc, hds, hst]
          · simp [started_kinds, hres, hst, starts]
        | some start =>
          by_cases h0 : (start (m.heap.brk + 1 + 1) state prim m.world).1 = 0
          · refine ⟨[Event.calloc (m.heap.brk + 1), Event.calloc (m.heap.brk + 1 + 1),
              Event.start iface.name (m.heap.brk + 1)], ?_, ?_⟩
            · simp [render_primitive_create, hname, hfind, calloc, hds, hst, h0]
            · simp [started_kinds, hres, hst, starts]
          · refine ⟨[Event.calloc (m.heap.brk + 1), Event.calloc (m.heap.brk + 1 + 1),
              Event.start iface.name (m.heap.brk + 1), Event.free (m.heap.brk + 1 + 1),
              Event.free (m.heap.brk + 1)], ?_, ?_⟩
            · simp [render_primitive_create, hname, hfind, calloc, hds, hst, h0, free]
            · simp [started_kinds, hres, hst, starts]
      · cases hst : iface.start with
        | none =>
          refine ⟨[Event.calloc (m.heap.brk + 1)], ?_, ?_⟩
          · simp [render_primitive_create, hname, hfind, calloc, hds, hst]
          · simp [started_kinds, hres, hst, starts]
        | some start =>
          by_cases h0 : (start 0 state prim m.world).1 = 0
          · refine ⟨[Event.calloc (m.heap.brk + 1),
              Event.start iface.name (m.heap.brk + 1)], ?_, ?_⟩
            · simp [render_primitive_create, hname, hfind, calloc, hds, hst, h0]
            · simp [started_kinds, hres, hst, starts]
          · refine ⟨[Event.calloc (m.heap.brk + 1),
              Event.start iface.name (m.heap.brk + 1), Event.free (m.heap.brk + 1)], ?_, ?_⟩
            · simp [render_primitive_create, hname, hfind, calloc, hds, hst, h0, free]
            · simp [started_kinds, hres, hst, starts]

theorem started_kinds_append {W : Type} (render_primitives : List (RenderPrimitiveInterface W))
    (a b : List PyPrimitive) :
    started_kinds render_primitives (a ++ b) =
      started_kinds render_primitives a ++ started_kinds render_primitives b := by
  simp [started_kinds, List.filterMap_append]

/-- C15.  `render_mode_create` builds the instances in list order and stops
at the first failure.  When the descriptors before position `i` (the list
`pre`) construct successfully in the run, one after the other from the machine
left by the allocation of the mode and of the slot array, and the construction
of descriptor `i` fails on the machine then reached, the call fails and the
`start` hooks invoked during it are, once each and in list order, those of the
descriptors `0..i` whose kind resolves and defines `start` (descriptor `i`
included when its `start` hook is the one that failed), and none of a later
descriptor.  When every descriptor constructs successfully, the call succeeds
and they are those of all the descriptors whose kind defines `start`, once each
and in list order. -/
theorem render_mode_create_start_order {W : Type}
    (render_primitives : List (RenderPrimitiveInterface W)) (state : Ptr) (m : Machine W) :
    (∀ (pre : List PyPrimitive) (d : PyPrimitive) (post : List PyPrimitive)
        (built : List (RenderPrimitive W)) (m0 : Machine W) (e : CreateError) (m2 : Machine W),
      construct_all render_primitives state pre (calloc (calloc m).2).2 = some (built, m0) →
      render_primitive_create render_primitives d state m0 = (.error e, m2) →
      ∃ m1 evs,
        render_mode_create render_primitives (some (pre ++ d :: post)) state m =
          (.error e, m1) ∧
        m1.log = m.log ++ evs ∧
        starts evs = started_kinds render_primitives (pre ++ [d])) ∧
    (∀ (mode : List PyPrimitive) (built : List (RenderPrimitive W)) (m1 : Machine W),
      construct_all render_primitives state mode (calloc (calloc m).2).2 = some (built, m1) →
      ∃ ret evs,
        render_mode_create render_primitives (some mode) state m = (.ok ret, m1) ∧
        m1.log = m.log ++ evs ∧
        starts evs = started_kinds render_primitives mode) := by
  constructor
  · intro pre d post built m0 e m2 hpre hd
    obtain ⟨m1, evs, evs_d, hlog2, hforall, hcreate, hlog, hevs, -, -, -, -, -⟩ :=
      render_mode_create_failure render_primitives state pre d post m built m0 e m2 hpre hd
    obtain ⟨evs1, hlog1, hstarts1⟩ := render_primitive_create_starts render_primitives d state m0
    rw [hd] at hlog1
    have heq : evs_d = evs1 := by
      have h := hlog2.symm.trans hlog1
      exact List.append_cancel_left h
    refine ⟨m1, evs, hcreate, hlog, ?_⟩
    rw [hevs, starts_append, starts_append, starts_append, starts_append, starts_destroy_events,
      starts_built render_primitives pre built hforall, heq, hstarts1, started_kinds_append]
    simp [starts]
  · intro mode built m1 hrun
    obtain ⟨-, hforall, -, -, hlog, -, -⟩ :=
      create_loop_constructed render_primitives state mode _ built m1 hrun
    refine ⟨⟨m.heap.brk + 1, state, m.heap.brk + 1 + 1, built.map some⟩,
      [Event.calloc (m.heap.brk + 1), Event.calloc (m.heap.brk + 1 + 1)] ++
        built.flatMap create_events, ?_, ?_, ?_⟩
    · exact render_mode_create_constructed render_primitives state mode m built m1 hrun
    · rw [hlog]
      simp [calloc, List.append_assoc]
    · rw [starts_append, starts_built render_primitives mode built hforall]
      simp [starts]

/-- C15 at the sequence `[P5, P5, P2]` over the table `[P1, P2, P5]`: the
`start` hook of the first `P5` runs and succeeds, that of the second `P5` runs
and fails, and the `start` hook of the last descriptor never runs; and at the
sequence `[P5]`, where nothing fails and the one `start` hook runs. -/
theorem render_mode_create_start_order_witness :
    construct_all counting_primitives 100 [⟨some "P5", none⟩]
        (calloc (calloc example_machine).2).2 = some ([⟨3, P5, 4⟩], machine_after_P5) ∧
    render_primitive_create counting_primitives ⟨some "P5", none⟩ 100 machine_after_P5 =
      (.error (.start_failed 1),
        ⟨⟨6, [4, 3, 2, 1]⟩,
          machine_after_P5.log ++ [Event.calloc 5, Event.calloc 6, Event.start "P5" 5,
            Event.free 6, Event.free 5], 2⟩) ∧
    (∃ m1 evs,
      render_mode_create counting_primitives
          (some ([⟨some "P5", none⟩] ++ ⟨some "P5", none⟩ :: [⟨some "P2", none⟩])) 100
          example_machine = (.error (.start_failed 1), m1) ∧
      m1.log = example_machine.log ++ evs ∧
      starts evs = ["P5", "P5"]) ∧
    (∃ ret evs,
      render_mode_create counting_primitives (some [⟨some "P5", none⟩]) 100
          example_machine = (.ok ret, machine_after_P5) ∧
      machine_after_P5.log = example_machine.log ++ evs ∧
      starts evs = ["P5"]) :=
  ⟨rfl, rfl,
    (render_mode_create_start_order counting_primitives 100 example_machine).1
      [⟨some "P5", none⟩] ⟨some "P5", none⟩ [⟨some "P2", none⟩] [⟨3, P5, 4⟩] machine_after_P5
      (.start_failed 1) _ rfl rfl,
    (render_mode_create_start_order counting_primitives 100 example_machine).2
      [⟨some "P5", none⟩] [⟨3, P5, 4⟩] machine_after_P5 rfl⟩

/-! ## Wrapping of a single value -/

/-- C13.  Whatever the parser, the name and the format: a stored value `v`
that is not a tuple is parsed exactly as the one-element tuple `(v,)` stored
in its place would be (same return value, same output variables, same
exception); and a stored tuple is handed to the parser as it is, without
being wrapped. -/
theorem render_mode_parse_option_wrapping {O : Type}
    (PyArg_VaParse : PyObject → String → O → VaParseResult O)
    (name format : String) (ap : O) :
    (∀ (v : PyObject) (s1 s2 : PyPrimitive) (dict1 dict2 : PyObject),
      PyTuple_Check v = false →
      s1.option_values = some dict1 → PyDict_GetItemString dict1 name = some v →
      s2.option_values = some dict2 →
      PyDict_GetItemString dict2 name = some (PyObject.tuple [v]) →
      render_mode_parse_option PyArg_VaParse (some s1) (some name) format ap =
        render_mode_parse_option PyArg_VaParse (some s2) (some name) format ap) ∧
    (∀ (items : List PyObject) (s : PyPrimitive) (dict : PyObject),
      s.option_values = some dict →
      PyDict_GetItemString dict name = some (PyObject.tuple items) →
      render_mode_parse_option PyArg_VaParse (some s) (some name) format ap =
        if (PyArg_VaParse (PyObject.tuple items) format ap).ret = 0 then
          ⟨(PyArg_VaParse (PyObject.tuple items) format ap).ret,
            (PyArg_VaParse (PyObject.tuple items) format ap).out,
            some (PyErr.TypeError ("rendermode option \"" ++ name ++
              "\" has incorrect type (" ++
              (PyArg_VaParse (PyObject.tuple items) format ap).errvalue ++ ")"))⟩
        else
          ⟨(PyArg_VaParse (PyObject.tuple items) format ap).ret,
            (PyArg_VaParse (PyObject.tuple items) format ap).out, none⟩) := by
  constructor
  · intro v s1 s2 dict1 dict2 hv h1 hl1 h2 hl2
    have ht : PyTuple_Check (PyObject.tuple [v]) = true := rfl
    simp only [render_mode_parse_option, h1, hl1, h2, hl2, hv, ht]
    simp
  · intro items s dict h hl
    have ht : PyTuple_Check (PyObject.tuple items) = true := rfl
    simp only [render_mode_parse_option, h, hl, ht]
    simp

/-- C13 at the value `5` stored under `n`, against the tuple `(5,)`, for the
format of one integer. -/
theorem render_mode_parse_option_wrapping_witness :
    PyTuple_Check (PyObject.int 5) = false ∧
    render_mode_parse_option parse_ints
        (some ⟨none, some (PyObject.dict [("n", PyObject.int 5)])⟩) (some "n") "i" [0] =
      render_mode_parse_option parse_ints
        (some ⟨none, some (PyObject.dict [("n", PyObject.tuple [PyObject.int 5])])⟩)
        (some "n") "i" [0] :=
  ⟨rfl, (render_mode_parse_option_wrapping parse_ints "n" "i" [0]).1 (PyObject.int 5)
    ⟨none, some (PyObject.dict [("n", PyObject.int 5)])⟩
    ⟨none, some (PyObject.dict [("n", PyObject.tuple [PyObject.int 5])])⟩
    (PyObject.dict [("n", PyObject.int 5)])
    (PyObject.dict [("n", PyObject.tuple [PyObject.int 5])])
    rfl rfl (by simp [PyDict_GetItemString, List.lookup]) rfl
    (by simp [PyDict_GetItemString, List.lookup])⟩

/-! ## Unpacking and mismatch -/

theorem unpack_length (us : List Char) (items : List PyObject) (vals : List CValue)
    (h : unpack us items = some vals) : us.length = items.length ∧ vals.length = items.length := by
  induction us generalizing items vals with
  | nil =>
    cases items with
    | nil =>
      simp only [unpack, Option.some.injEq] at h
      subst h
      exact ⟨rfl, rfl⟩
    | cons a rest => simp [unpack] at h
  | cons u us ih =>
    cases items with
    | nil => simp [unpack] at h
    | cons a rest =>
      simp only [unpack] at h
      cases hc : convert_unit u a with
      | none => simp [hc] at h
      | some v =>
        simp only [hc, Option.map_eq_some'] at h
        obtain ⟨vs, hvs, rfl⟩ := h
        obtain ⟨h1, h2⟩ := ih rest vs hvs
        simp [h1, h2]

theorem convert_loop_some (us : List Char) (items : List PyObject) (vals done ap : List CValue)
    (h : unpack us items = some vals) :
    convert_loop us items done ap =
      ⟨1, (done ++ vals) ++ ap.drop (done ++ vals).length, ""⟩ := by
  induction us generalizing items vals done with
  | nil =>
    cases items with
    | nil =>
      simp only [unpack, Option.some.injEq] at h
      subst h
      simp [convert_loop]
    | cons a rest => simp [unpack] at h
  | cons u us ih =>
    cases items with
    | nil => simp [unpack] at h
    | cons a rest =>
      simp only [unpack] at h
      cases hc : convert_unit u a with
      | none => simp [hc] at h
      | some v =>
        simp only [hc, Option.map_eq_some'] at h
        obtain ⟨vs, hvs, rfl⟩ := h
        simp only [convert_loop, hc]
        rw [ih rest vs (done ++ [v]) hvs]
        simp [List.append_assoc]

theorem convert_loop_none (us : List Char) (items : List PyObject) (done ap : List CValue)
    (hlen : items.length = us.length) (h : unpack us items = none) :
    (convert_loop us items done ap).ret = 0 := by
  induction us generalizing items done with
  | nil =>
    cases items with
    | nil => simp [unpack] at h
    | cons a rest => simp at hlen
  | cons u us ih =>
    cases items with
    | nil => simp at hlen
    | cons a rest =>
      simp only [unpack] at h
      cases hc : convert_unit u a with
      | none => simp [convert_loop, hc]
      | some v =>
        simp only [hc, Option.map_eq_none'] at h
        simp only [convert_loop, hc]
        exact ih rest (done ++ [v]) (by simpa using hlen) h

/-- The model parser honours the contract. -/
theorem PyArg_VaParse_units_honours_format : honours_format PyArg_VaParse_units := by
  intro items format ap
  constructor
  · intro vals h
    obtain ⟨hlen, -⟩ := unpack_length _ _ _ h
    simp only [PyArg_VaParse_units, hlen, if_true]
    rw [convert_loop_some _ _ vals [] ap h]
    simp
  · intro _ h
    by_cases hlen : items.length = format.toList.length
    · simp only [PyArg_VaParse_units, hlen, if_true]
      exact convert_loop_none _ _ [] ap hlen h
    · simp only [PyArg_VaParse_units]
      rw [if_neg hlen]

theorem wrap_items_eq (v : PyObject) :
    (if PyTuple_Check v then v else PyObject.tuple [v]) = PyObject.tuple (wrap_items v) := by
  cases v <;> rfl

/-- The bag `strength = (0.5,)` under the formats `d` and `f`: the variable
receives the float, as a `double` and narrowed to a `float`. -/
theorem render_mode_parse_option_float :
    render_mode_parse_option PyArg_VaParse_units (some support_with_strength)
        (some "strength") "d" [CValue.double 0] =
      ⟨1, [CValue.double 4602678819172646912], none⟩ ∧
    render_mode_parse_option PyArg_VaParse_units (some support_with_strength)
        (some "strength") "f" [CValue.single 0] =
      ⟨1, [CValue.single 4602678819172646912], none⟩ :=
  ⟨rfl, rfl⟩

/-- C12.  For every option name present in the bag and every stored value
whose tuple (the value itself, or the one-element tuple around a value that is
not a tuple) the parser refuses, `render_mode_parse_option` returns `0` and
leaves a `TypeError` pending whose message is
`rendermode option "NAME" has incorrect type (DESCRIPTION)`, with the option
name and the parser's description of the mismatch.  With a parser that
honours the format contract this is the case whenever the tuple does not match
a format of `i` and `s` units in arity or in the type of a slot. -/
theorem render_mode_parse_option_type_mismatch
    (PyArg_VaParse : PyObject → String → List CValue → VaParseResult (List CValue))
    (s : PyPrimitive) (name format : String) (ap : List CValue) (dict v : PyObject)
    (hdict : s.option_values = some dict)
    (hlook : PyDict_GetItemString dict name = some v) :
    ((PyArg_VaParse (PyObject.tuple (wrap_items v)) format ap).ret = 0 →
      (render_mode_parse_option PyArg_VaParse (some s) (some name) format ap).ret = 0 ∧
      (render_mode_parse_option PyArg_VaParse (some s) (some name) format ap).raised =
        some (PyErr.TypeError ("rendermode option \"" ++ name ++ "\" has incorrect type (" ++
          (PyArg_VaParse (PyObject.tuple (wrap_items v)) format ap).errvalue ++ ")"))) ∧
    (honours_format PyArg_VaParse → (∀ u ∈ format.toList, u = 'i' ∨ u = 's') →
      unpack format.toList (wrap_items v) = none →
      (render_mode_parse_option PyArg_VaParse (some s) (some name) format ap).ret = 0 ∧
      (render_mode_parse_option PyArg_VaParse (some s) (some name) format ap).raised =
        some (PyErr.TypeError ("rendermode option \"" ++ name ++ "\" has incorrect type (" ++
          (PyArg_VaParse (PyObject.tuple (wrap_items v)) format ap).errvalue ++ ")"))) := by
  have key : (PyArg_VaParse (PyObject.tuple (wrap_items v)) format ap).ret = 0 →
      (render_mode_parse_option PyArg_VaParse (some s) (some name) format ap).ret = 0 ∧
      (render_mode_parse_option PyArg_VaParse (some s) (some name) format ap).raised =
        some (PyErr.TypeError ("rendermode option \"" ++ name ++ "\" has incorrect type (" ++
          (PyArg_VaParse (PyObject.tuple (wrap_items v)) format ap).errvalue ++ ")")) := by
    intro hret
    have heq : render_mode_parse_option PyArg_VaParse (some s) (some name) format ap =
        ⟨(PyArg_VaParse (PyObject.tuple (wrap_items v)) format ap).ret,
          (PyArg_VaParse (PyObject.tuple (wrap_items v)) format ap).out,
          some (PyErr.TypeError ("rendermode option \"" ++ name ++
            "\" has incorrect type (" ++
            (PyArg_VaParse (PyObject.tuple (wrap_items v)) format ap).errvalue ++ ")"))⟩ := by
      simp only [render_mode_parse_option, hdict, hlook, wrap_items_eq, hret, if_true]
    rw [heq]
    exact ⟨hret, rfl⟩
  exact ⟨key, fun hparser hunits hmis => key ((hparser (wrap_items v) format ap).2 hunits hmis)⟩

/-- C12 at the bag `color = "red"` and the format of three integers: the
error names `color`. -/
theorem render_mode_parse_option_type_mismatch_witness :
    honours_format PyArg_VaParse_units ∧
    support_with_red.option_values = some (PyObject.dict [("color", PyObject.str "red")]) ∧
    (∀ u ∈ "iii".toList, u = 'i' ∨ u = 's') ∧
    unpack "iii".toList (wrap_items (PyObject.str "red")) = none ∧
    (render_mode_parse_option PyArg_VaParse_units (some support_with_red) (some "color") "iii"
      [CValue.int 0, CValue.int 0, CValue.int 0]).ret = 0 ∧
    (render_mode_parse_option PyArg_VaParse_units (some support_with_red) (some "color") "iii"
      [CValue.int 0, CValue.int 0, CValue.int 0]).raised =
      some (PyErr.TypeError
        "rendermode option \"color\" has incorrect type (wrong number of arguments)") :=
  ⟨PyArg_VaParse_units_honours_format, rfl, by decide, by decide,
    (render_mode_parse_option_type_mismatch PyArg_VaParse_units support_with_red "color" "iii"
      [CValue.int 0, CValue.int 0, CValue.int 0]
      (PyObject.dict [("color", PyObject.str "red")]) (PyObject.str "red") rfl
      (by simp [PyDict_GetItemString, List.lookup])).2 PyArg_VaParse_units_honours_format
      (by decide) (by decide)⟩

/-! ## References held by the option helper -/

/-- C14.  On every path of `render_mode_parse_option` (the value it returns
is that of the plain embedding): each reference is acquired at most once, and
replaying the operations from an empty set of owned references never releases
a reference that is not owned and ends with nothing owned, so every reference
acquired is released exactly once before the return; the reference counts of
the bag's mapping and of the stored value end as they began. -/
theorem render_mode_parse_option_references {O : Type}
    (PyArg_VaParse : PyObject → String → O → VaParseResult O)
    (support : Option PyPrimitive) (name : Option String) (format : String) (ap : O)
    (errtraceback : Bool) (c : RefCounts) :
    (render_mode_parse_option_refs PyArg_VaParse support name format ap errtraceback).1 =
      render_mode_parse_option PyArg_VaParse support name format ap ∧
    (acquired (render_mode_parse_option_refs PyArg_VaParse support name format ap
      errtraceback).2).Nodup ∧
    owned_after [] (render_mode_parse_option_refs PyArg_VaParse support name format ap
      errtraceback).2 = some [] ∧
    ((render_mode_parse_option_refs PyArg_VaParse support name format ap
      errtraceback).2.foldl apply_op c).option_values = c.option_values ∧
    ((render_mode_parse_option_refs PyArg_VaParse support name format ap
      errtraceback).2.foldl apply_op c).value = c.value := by
  cases support with
  | none => simp [render_mode_parse_option_refs, render_mode_parse_option, acquired, owned_after]
  | some s =>
    cases name with
    | none =>
      simp [render_mode_parse_option_refs, render_mode_parse_option, acquired, owned_after]
    | some n =>
      cases hdict : s.option_values with
      | none =>
        simp [render_mode_parse_option_refs, render_mode_parse_option, hdict, acquired,
          owned_after]
      | some dict =>
        cases hitem : PyDict_GetItemString dict n with
        | none =>
          simp [render_mode_parse_option_refs, render_mode_parse_option, hdict, hitem, acquired,
            owned_after, apply_op]
        | some item =>
          cases ht : PyTuple_Check item <;>
            by_cases hret : (PyArg_VaParse
              (if PyTuple_Check item then item else PyObject.tuple [item]) format ap).ret = 0 <;>
            cases errtraceback <;>
            simp [ht] at hret <;>
            simp [render_mode_parse_option_refs, render_mode_parse_option, hdict, hitem, ht,
              hret, acquired, owned_after, apply_op]

/-! ## The mode after a traversal -/

/-- The `occluded` queries leave the world as it is. -/
theorem occluded_loop_world {W : Type} (state : Ptr) (x y z : Int)
    (rest : List (Option (RenderPrimitive W))) (i : Nat) (acc : Int) (m : Machine W)
    (r : Int) (m1 : Machine W)
    (h : occluded_loop state x y z rest i acc m = some (r, m1)) : m1.world = m.world := by
  induction rest generalizing i acc m with
  | nil =>
    simp only [occluded_loop, Option.some.injEq, Prod.mk.injEq] at h
    rw [← h.2]
  | cons slot rest ih =>
    cases slot with
    | none => simp [occluded_loop] at h
    | some prim =>
      cases hocc : prim.iface.occluded with
      | none =>
        simp only [occluded_loop, hocc] at h
        split at h
        · simp only [Option.some.injEq, Prod.mk.injEq] at h
          rw [← h.2]
        · exact ih _ _ _ h
      | some hook =>
        simp only [occluded_loop, hocc] at h
        split at h
        · simp only [Option.some.injEq, Prod.mk.injEq] at h
          rw [← h.2]
        · have hw := ih _ _ _ h
          exact hw

/-- The condition on the `draw` hooks cannot be dropped: a hook that does not
keep to the output targets and wipes the slots of the mode leaves a record
with no primitive, and the loop, which reads the record afresh, stops there. -/
theorem draw_hook_may_rewrite_record :
    fully_built (canvas_record wiped_machine.world) ∧
    render_mode_draw_resident canvas_record 7 8 9 3 wiped_machine =
      some ⟨⟨0, []⟩, [Event.draw 0], ⟨0, []⟩⟩ ∧
    (canvas_record wiped_machine.world).num_primitives = 2 ∧
    (canvas_record (⟨0, []⟩ : Canvas)).num_primitives = 0 :=
  ⟨rfl, rfl, rfl, rfl⟩

end Rendermodes
